import Mathlib

/-!
API gateway (`api-gateway/main.go`): reverse proxy and health aggregation.

A shallow embedding of the gateway's handlers and route table

* `createProxyHandler` (main.go 102-170),
* the `GET /health` handler with `isServiceHealthy` (main.go 34-53, 86-100),
* the routes registered by `main` (main.go 34-75) with the decision gin's router takes
  on them,

together with the parts of the Go standard library (`net/url`, `net/http`,
`net/textproto`, as of Go 1.22 and 1.23) and of gin (`Context.JSON`, `Context.Header`,
`Context.Status`) whose behaviour decides what the handlers do.

Conventions of the embedding:

* a Go `string` is a sequence of bytes, `GoString = List (Fin 256)`;
* a Go `map` is an association list; iteration (`range`) visits it in list order,
  so quantifying over the list quantifies over Go's unspecified iteration order;
* the network is an explicit parameter (`Network`): the outcome of `client.Get` and of
  `client.Do` as a function of the calls made so far and of the call itself; every
  handler returns, next to the response it wrote, the list of network calls it issued;
* `log.Printf` lines are not modelled;
* a JSON body is kept as the value handed to `c.JSON` (its serialisation by
  `encoding/json` is not modelled).
-/

set_option autoImplicit false

/-! ## Byte strings -/

/-- A byte. -/
abbrev Byte := Fin 256

/-- A Go string: an immutable sequence of bytes. -/
abbrev GoString := List Byte

/-- The bytes (UTF-8) of a string literal. -/
def gs (s : String) : GoString :=
  (s.toList.flatMap String.utf8EncodeChar).map (fun u => Fin.ofNat u.toNat)

/-- Equality of Go results (value or error) is decidable. -/
instance instDecidableEqExcept {ε α : Type} [DecidableEq ε] [DecidableEq α] :
    DecidableEq (Except ε α)
  | .ok a, .ok b => if h : a = b then isTrue (by rw [h]) else isFalse (by intro e; cases e; exact h rfl)
  | .error a, .error b =>
    if h : a = b then isTrue (by rw [h]) else isFalse (by intro e; cases e; exact h rfl)
  | .ok _, .error _ => isFalse (by intro e; cases e)
  | .error _, .ok _ => isFalse (by intro e; cases e)

/-- The byte of an ASCII character literal. -/
def ch (c : Char) : Byte := Fin.ofNat c.toNat

namespace strings

/-- Go `strings.Cut(s, sep)` for a one-byte separator: the text before and after the first
`sep`, and whether `sep` was found. -/
def Cut (sep : Byte) : GoString → GoString × GoString × Bool
  | [] => ([], [], false)
  | c :: rest =>
    if c = sep then ([], rest, true)
    else
      let r := Cut sep rest
      (c :: r.1, r.2.1, r.2.2)

/-- Go `strings.Index(s, sub)`: position of the first occurrence of `sub`, if any. -/
def Index (sub : GoString) : GoString → Option Nat
  | [] => if sub = [] then some 0 else none
  | c :: rest =>
    if sub.isPrefixOf (c :: rest) then some 0
    else (Index sub rest).map (· + 1)

/-- Go `strings.LastIndexByte(s, c)` (also `strings.LastIndex` with a one-byte needle). -/
def LastIndexByte (sep : Byte) : GoString → Option Nat
  | [] => none
  | c :: rest =>
    match LastIndexByte sep rest with
    | some i => some (i + 1)
    | none => if c = sep then some 0 else none

/-- Go `strings.HasSuffix(s, suffix)`. -/
def HasSuffix (s suffix : GoString) : Bool := suffix.reverse.isPrefixOf s.reverse

/-- Go `strings.ToLower` on ASCII letters (the only bytes a URL scheme can hold). -/
def ToLower (s : GoString) : GoString :=
  s.map (fun c => if ch 'A' ≤ c ∧ c ≤ ch 'Z' then c + 32 else c)

end strings

/-! ## net/url: escaping -/

namespace url

/-- The `encoding` modes of net/url. -/
inductive encoding
  | encodePath
  | encodePathSegment
  | encodeHost
  | encodeZone
  | encodeUserPassword
  | encodeQueryComponent
  | encodeFragment
  deriving DecidableEq, Repr

open encoding

/-- ASCII letter or digit. -/
def isAlnum (c : Byte) : Bool :=
  (ch 'a' ≤ c && c ≤ ch 'z') || (ch 'A' ≤ c && c ≤ ch 'Z') || (ch '0' ≤ c && c ≤ ch '9')

/-- Transcription of `shouldEscape(c, mode)`: whether byte `c` is percent-encoded when it
appears in the part of a URL named by `mode`. -/
def shouldEscape (c : Byte) (mode : encoding) : Bool :=
  if isAlnum c then false
  else if (mode = encodeHost ∨ mode = encodeZone) ∧
      (gs "!$&'()*+,;=:[]<>\"").contains c then false
  else if (gs "-_.~").contains c then false
  else if (gs "$&+,/:;=?@").contains c ∧
      (mode = encodePath ∨ mode = encodePathSegment ∨ mode = encodeUserPassword ∨
        mode = encodeQueryComponent ∨ mode = encodeFragment) then
    match mode with
    | encodePath => c == ch '?'
    | encodePathSegment => c == ch '/' || c == ch ';' || c == ch ',' || c == ch '?'
    | encodeUserPassword => c == ch '@' || c == ch '/' || c == ch '?' || c == ch ':'
    | encodeQueryComponent => true
    | _ => false
  else if mode = encodeFragment ∧ (gs "!()*").contains c then false
  else true

/-- Transcription of `ishex`. -/
def ishex (c : Byte) : Bool :=
  (ch '0' ≤ c && c ≤ ch '9') || (ch 'a' ≤ c && c ≤ ch 'f') || (ch 'A' ≤ c && c ≤ ch 'F')

/-- Transcription of `unhex`. -/
def unhex (c : Byte) : Byte :=
  if ch '0' ≤ c ∧ c ≤ ch '9' then c - ch '0'
  else if ch 'a' ≤ c ∧ c ≤ ch 'f' then c - ch 'a' + 10
  else if ch 'A' ≤ c ∧ c ≤ ch 'F' then c - ch 'A' + 10
  else 0

/-- The table `upperhex`. -/
def upperhex : GoString := gs "0123456789ABCDEF"

/-- The byte `unhex(a)<<4 | unhex(b)`. -/
def unhexPair (a b : Byte) : Byte :=
  Fin.ofNat ((((unhex a).val <<< 4) % 256) ||| (unhex b).val)

/-- Transcription of `escape(s, mode)`: every byte for which `shouldEscape` holds becomes
`%XX` (a space becomes `+` in query components), every other byte is kept. -/
def escape (s : GoString) (mode : encoding) : GoString :=
  s.flatMap (fun c =>
    if c = ch ' ' ∧ mode = encodeQueryComponent then [ch '+']
    else if shouldEscape c mode then
      [ch '%', upperhex.getD (c.val >>> 4) 0, upperhex.getD (c.val &&& 15) 0]
    else [c])

/-- Errors of net/url, kept as data (their text is produced by `strconv.Quote`-based
formatting, which is not modelled). -/
inductive ParseError
  | invalidControlCharacter
  | missingProtocolScheme
  | firstPathSegmentColon
  | escapeError (s : GoString)
  | invalidHostError (s : GoString)
  | missingBracket
  | invalidPort (port : GoString)
  | invalidUserinfo
  deriving DecidableEq, Repr

/-- First loop of `unescape(s, mode)`: checks that every `%` starts a well-formed escape
that the mode allows and that host bytes are legal. -/
def unescapeCheck (mode : encoding) : GoString → Except ParseError Unit
  | [] => .ok ()
  | c :: rest =>
    if c = ch '%' then
      match rest with
      | a :: b :: rest2 =>
        if !ishex a || !ishex b then .error (.escapeError [c, a, b])
        else if mode = encodeHost ∧ unhex a < 8 ∧ [c, a, b] ≠ gs "%25" then
          .error (.escapeError [c, a, b])
        else if mode = encodeZone ∧ [c, a, b] ≠ gs "%25" ∧ unhexPair a b ≠ ch ' ' ∧
            shouldEscape (unhexPair a b) encodeHost then
          .error (.escapeError [c, a, b])
        else unescapeCheck mode rest2
      | _ => .error (.escapeError (c :: rest))
    else if (mode = encodeHost ∨ mode = encodeZone) ∧ c < 128 ∧
        shouldEscape c encodeHost then
      .error (.invalidHostError [c])
    else unescapeCheck mode rest

/-- Second loop of `unescape(s, mode)`: decodes `%XX` (and `+` in query components). -/
def unescapeDecode (mode : encoding) : GoString → GoString
  | [] => []
  | c :: rest =>
    if c = ch '%' then
      match rest with
      | a :: b :: rest2 => unhexPair a b :: unescapeDecode mode rest2
      | _ => []
    else if c = ch '+' then
      (if mode = encodeQueryComponent then ch ' ' else ch '+') :: unescapeDecode mode rest
    else c :: unescapeDecode mode rest

/-- Transcription of `unescape(s, mode)`. -/
def unescape (s : GoString) (mode : encoding) : Except ParseError GoString :=
  match unescapeCheck mode s with
  | .error e => .error e
  | .ok () => .ok (unescapeDecode mode s)

/-- Transcription of `validEncoded(s, mode)`. -/
def validEncoded (s : GoString) (mode : encoding) : Bool :=
  s.all (fun c =>
    if (gs "!$&'()*+,;=:@").contains c then true
    else if c = ch '[' ∨ c = ch ']' then true
    else if c = ch '%' then true
    else !shouldEscape c mode)

end url

/-! ## net/url: the URL type, parsing, reference resolution, printing -/

/-- The type `url.Userinfo`. -/
structure Userinfo where
  username : GoString
  password : GoString
  passwordSet : Bool
  deriving DecidableEq, Repr

/-- The type `url.URL` (`User == nil` is `none`). -/
structure URL where
  Scheme : GoString := []
  Opaque : GoString := []
  User : Option Userinfo := none
  Host : GoString := []
  Path : GoString := []
  RawPath : GoString := []
  OmitHost : Bool := false
  ForceQuery : Bool := false
  RawQuery : GoString := []
  Fragment : GoString := []
  RawFragment : GoString := []
  deriving DecidableEq, Repr

namespace url

open encoding

/-- Transcription of `(*URL).setPath`: the updated URL, or the error (on which Go leaves the
URL as it was). -/
def setPath (u : URL) (p : GoString) : Except ParseError URL :=
  match unescape p encodePath with
  | .error e => .error e
  | .ok path =>
    .ok { u with Path := path, RawPath := if p = escape path encodePath then [] else p }

/-- The test `p, err := unescape(raw, mode); err == nil && p == want`. -/
def unescapesTo (raw : GoString) (mode : encoding) (want : GoString) : Bool :=
  match unescape raw mode with
  | .ok p => p == want
  | .error _ => false

/-- Transcription of `(*URL).EscapedPath`. -/
def EscapedPath (u : URL) : GoString :=
  if u.RawPath ≠ [] ∧ validEncoded u.RawPath encodePath ∧
      unescapesTo u.RawPath encodePath u.Path then u.RawPath
  else if u.Path = gs "*" then gs "*"
  else escape u.Path encodePath

/-- Transcription of `(*URL).setFragment`. -/
def setFragment (u : URL) (f : GoString) : Except ParseError URL :=
  match unescape f encodeFragment with
  | .error e => .error e
  | .ok frag =>
    .ok { u with Fragment := frag,
                 RawFragment := if f = escape frag encodeFragment then [] else f }

/-- Transcription of `(*URL).EscapedFragment`. -/
def EscapedFragment (u : URL) : GoString :=
  if u.RawFragment ≠ [] ∧ validEncoded u.RawFragment encodeFragment ∧
      unescapesTo u.RawFragment encodeFragment u.Fragment then u.RawFragment
  else escape u.Fragment encodeFragment

/-- Loop of `getScheme`: the error "missing protocol scheme", or the pair of the scheme and
the rest. `whole` is the full input, `pre` the bytes already read (reversed), the last
argument the bytes still to read. -/
def getSchemeLoop (whole : GoString) : GoString → GoString → Except ParseError (GoString × GoString)
  | _, [] => .ok ([], whole)
  | pre, c :: rest =>
    if (ch 'a' ≤ c ∧ c ≤ ch 'z') ∨ (ch 'A' ≤ c ∧ c ≤ ch 'Z') then
      getSchemeLoop whole (c :: pre) rest
    else if (ch '0' ≤ c ∧ c ≤ ch '9') ∨ c = ch '+' ∨ c = ch '-' ∨ c = ch '.' then
      if pre = [] then .ok ([], whole) else getSchemeLoop whole (c :: pre) rest
    else if c = ch ':' then
      if pre = [] then .error .missingProtocolScheme else .ok (pre.reverse, rest)
    else .ok ([], whole)

/-- Transcription of `getScheme(rawURL)`. -/
def getScheme (rawURL : GoString) : Except ParseError (GoString × GoString) :=
  getSchemeLoop rawURL [] rawURL

/-- Transcription of `stringContainsCTLByte`. -/
def stringContainsCTLByte (s : GoString) : Bool :=
  s.any (fun b => b < ch ' ' || b == 0x7f)

/-- Transcription of `validOptionalPort`. -/
def validOptionalPort (port : GoString) : Bool :=
  match port with
  | [] => true
  | c :: digits => c == ch ':' && digits.all (fun b => ch '0' ≤ b && b ≤ ch '9')

/-- Transcription of `validUserinfo`. -/
def validUserinfo (s : GoString) : Bool :=
  s.all (fun r => isAlnum r || (gs "-._:~!$&'()*+,;=%@").contains r)

/-- Transcription of `parseHost`. -/
def parseHost (host : GoString) : Except ParseError GoString :=
  let plain : Except ParseError GoString := unescape host encodeHost
  if (gs "[").isPrefixOf host then
    match strings.LastIndexByte (ch ']') host with
    | none => .error .missingBracket
    | some i =>
      let colonPort := host.drop (i + 1)
      if !validOptionalPort colonPort then .error (.invalidPort colonPort)
      else
        match strings.Index (gs "%25") (host.take i) with
        | some zone =>
          match unescape (host.take zone) encodeHost with
          | .error e => .error e
          | .ok host1 =>
            match unescape ((host.take i).drop zone) encodeZone with
            | .error e => .error e
            | .ok host2 =>
              match unescape (host.drop i) encodeHost with
              | .error e => .error e
              | .ok host3 => .ok (host1 ++ host2 ++ host3)
        | none => plain
  else
    match strings.LastIndexByte (ch ':') host with
    | some i =>
      let colonPort := host.drop i
      if !validOptionalPort colonPort then .error (.invalidPort colonPort) else plain
    | none => plain

/-- Transcription of `parseAuthority`. -/
def parseAuthority (authority : GoString) : Except ParseError (Option Userinfo × GoString) :=
  match strings.LastIndexByte (ch '@') authority with
  | none =>
    match parseHost authority with
    | .error e => .error e
    | .ok host => .ok (none, host)
  | some i =>
    match parseHost (authority.drop (i + 1)) with
    | .error e => .error e
    | .ok host =>
      let userinfo := authority.take i
      if !validUserinfo userinfo then .error .invalidUserinfo
      else if !userinfo.contains (ch ':') then
        match unescape userinfo encodeUserPassword with
        | .error e => .error e
        | .ok name => .ok (some { username := name, password := [], passwordSet := false }, host)
      else
        let cut := strings.Cut (ch ':') userinfo
        match unescape cut.1 encodeUserPassword with
        | .error e => .error e
        | .ok name =>
          match unescape cut.2.1 encodeUserPassword with
          | .error e => .error e
          | .ok pw => .ok (some { username := name, password := pw, passwordSet := true }, host)

/-- Transcription of `parse(rawURL, viaRequest)` at `viaRequest = false`, the only way
`url.Parse` calls it. -/
def parse (rawURL : GoString) : Except ParseError URL :=
  if stringContainsCTLByte rawURL then .error .invalidControlCharacter
  else if rawURL = gs "*" then .ok { Path := gs "*" }
  else
    match getScheme rawURL with
    | .error e => .error e
    | .ok (scheme, rest0) =>
      let scheme := strings.ToLower scheme
      let forceQuery : Bool := strings.HasSuffix rest0 (gs "?") && rest0.count (ch '?') == 1
      let rest1 : GoString := if forceQuery then rest0.dropLast else (strings.Cut (ch '?') rest0).1
      let rawQuery : GoString := if forceQuery then [] else (strings.Cut (ch '?') rest0).2.1
      let u0 : URL := { Scheme := scheme, ForceQuery := forceQuery, RawQuery := rawQuery }
      if !(gs "/").isPrefixOf rest1 ∧ scheme ≠ [] then .ok { u0 with Opaque := rest1 }
      else if !(gs "/").isPrefixOf rest1 ∧ (strings.Cut (ch '/') rest1).1.contains (ch ':') then
        .error .firstPathSegmentColon
      else if (scheme ≠ [] ∨ !(gs "///").isPrefixOf rest1) ∧ (gs "//").isPrefixOf rest1 then
        let authority0 := rest1.drop 2
        let authority : GoString :=
          match strings.Index (gs "/") authority0 with
          | some i => authority0.take i
          | none => authority0
        let rest2 : GoString :=
          match strings.Index (gs "/") authority0 with
          | some i => authority0.drop i
          | none => []
        match parseAuthority authority with
        | .error e => .error e
        | .ok (user, host) => setPath { u0 with User := user, Host := host } rest2
      else if scheme ≠ [] ∧ (gs "/").isPrefixOf rest1 then
        setPath { u0 with OmitHost := true } rest1
      else setPath u0 rest1

/-- The error type `*url.Error`: operation, URL text and cause. -/
structure Error where
  Op : GoString
  URL : GoString
  Err : ParseError
  deriving DecidableEq, Repr

/-- Transcription of `url.Parse(rawURL)`. -/
def Parse (rawURL : GoString) : Except Error URL :=
  let cut := strings.Cut (ch '#') rawURL
  match parse cut.1 with
  | .error e => .error { Op := gs "parse", URL := cut.1, Err := e }
  | .ok u =>
    if cut.2.1 = [] then .ok u
    else
      match setFragment u cut.2.1 with
      | .error e => .error { Op := gs "parse", URL := rawURL, Err := e }
      | .ok u1 => .ok u1

end url

namespace strings

/-- Go `strings.Split(s, sep)` for a one-byte separator: the segments between the
separators, in order (never an empty list). -/
def Split (sep : Byte) : GoString → List GoString
  | [] => [[]]
  | c :: rest =>
    if c = sep then [] :: Split sep rest
    else
      match Split sep rest with
      | [] => [[c]]
      | seg :: segs => (c :: seg) :: segs

end strings

namespace url

open encoding

/-- State of the loop of `resolvePath`: the builder `dst` and the flag `first`. -/
structure ResolveState where
  dst : GoString
  first : Bool
  deriving DecidableEq, Repr

/-- Body of the loop of `resolvePath` for one path element `elem`: `.` is dropped, `..`
removes the last element written, anything else is appended after a `/`. -/
def resolveStep (st : ResolveState) (elem : GoString) : ResolveState :=
  if elem = gs "." then { st with first := false }
  else if elem = gs ".." then
    let str := st.dst.drop 1
    match strings.LastIndexByte (ch '/') str with
    | none => { dst := gs "/", first := true }
    | some index => { dst := gs "/" ++ str.take index, first := st.first }
  else
    { dst := (if st.first then st.dst else st.dst ++ gs "/") ++ elem, first := false }

/-- Transcription of `resolvePath(base, ref)`: the loop
`for found` with `elem, remaining, found = strings.Cut(remaining, "/")` visits the
`/`-separated elements of `full` in order, which is a left fold of `resolveStep` over
`strings.Split full '/'`; `elem` after the loop is the last element. -/
def resolvePath (base ref : GoString) : GoString :=
  let full : GoString :=
    match ref with
    | [] => base
    | c :: _ =>
      if c ≠ ch '/' then
        (match strings.LastIndexByte (ch '/') base with
         | some i => base.take (i + 1)
         | none => []) ++ ref
      else ref
  if full = [] then []
  else
    let elems := strings.Split (ch '/') full
    let st := elems.foldl resolveStep { dst := gs "/", first := true }
    let last := elems.getLastD []
    let r := if last = gs "." ∨ last = gs ".." then st.dst ++ gs "/" else st.dst
    if r.length > 1 ∧ (r.drop 1).head? = some (ch '/') then r.drop 1 else r

/-- The statement `url.setPath(p)` with its error ignored, as `ResolveReference` uses it. -/
def setPathIgnoringError (u : URL) (p : GoString) : URL :=
  match setPath u p with
  | .ok u1 => u1
  | .error _ => u

/-- Transcription of `(*URL).ResolveReference(ref)`. The branch for an empty reference path
on an opaque base is that of the newer releases; it is never taken for a reference with a
non-empty path, the only kind the gateway resolves. -/
def ResolveReference (u ref : URL) : URL :=
  let url0 : URL := if ref.Scheme = [] then { ref with Scheme := u.Scheme } else ref
  if ref.Scheme ≠ [] ∨ ref.Host ≠ [] ∨ ref.User ≠ none then
    setPathIgnoringError url0 (resolvePath (EscapedPath ref) [])
  else if ref.Opaque ≠ [] then
    { url0 with User := none, Host := [], Path := [] }
  else
    let url1 : URL :=
      if ref.Path = [] ∧ !ref.ForceQuery ∧ ref.RawQuery = [] then
        if ref.Fragment = [] then
          { url0 with RawQuery := u.RawQuery, Fragment := u.Fragment,
                      RawFragment := u.RawFragment }
        else { url0 with RawQuery := u.RawQuery }
      else url0
    if ref.Path = [] ∧ u.Opaque ≠ [] then
      { url1 with Opaque := u.Opaque, User := none, Host := [], Path := [] }
    else
      setPathIgnoringError { url1 with Host := u.Host, User := u.User }
        (resolvePath (EscapedPath u) (EscapedPath ref))

/-- Transcription of `(*Userinfo).String` (for a non-nil receiver). -/
def Userinfo.String (ui : Userinfo) : GoString :=
  escape ui.username encodeUserPassword ++
    (if ui.passwordSet then gs ":" ++ escape ui.password encodeUserPassword else [])

/-- Transcription of `(*URL).String`: the text is built left to right in `buf`. -/
def String (u : URL) : GoString :=
  let buf0 : GoString := if u.Scheme ≠ [] then u.Scheme ++ gs ":" else []
  let buf1 : GoString :=
    if u.Opaque ≠ [] then buf0 ++ u.Opaque
    else
      let buf2 : GoString :=
        if u.Scheme ≠ [] ∨ u.Host ≠ [] ∨ u.User ≠ none then
          if u.OmitHost ∧ u.Host = [] ∧ u.User = none then buf0
          else
            buf0 ++ (if u.Host ≠ [] ∨ u.Path ≠ [] ∨ u.User ≠ none then gs "//" else []) ++
              (match u.User with
               | some ui => Userinfo.String ui ++ gs "@"
               | none => []) ++
              (if u.Host ≠ [] then escape u.Host encodeHost else [])
        else buf0
      let path := EscapedPath u
      let buf3 : GoString :=
        if path ≠ [] ∧ path.head? ≠ some (ch '/') ∧ u.Host ≠ [] then buf2 ++ gs "/" else buf2
      let buf4 : GoString :=
        if buf3 = [] ∧ (strings.Cut (ch '/') path).1.contains (ch ':') then buf3 ++ gs "./"
        else buf3
      buf4 ++ path
  let buf5 : GoString :=
    if u.ForceQuery ∨ u.RawQuery ≠ [] then buf1 ++ gs "?" ++ u.RawQuery else buf1
  if u.Fragment ≠ [] then buf5 ++ gs "#" ++ EscapedFragment u else buf5

end url

/-! ## net/textproto and net/http: headers and requests -/

/-- The type `http.Header` (`map[string][]string`) as an association list. -/
abbrev Header := List (GoString × List GoString)

namespace textproto

/-- Transcription of `validHeaderFieldByte`: the token bytes of RFC 7230 (0x60 is the
backquote). -/
def validHeaderFieldByte (c : Byte) : Bool :=
  url.isAlnum c || (gs "!#$%&'*+-.^_|~").contains c || c == 0x60

/-- Second loop of `canonicalMIMEHeaderKey`: upper case for the first letter and for every
letter after a dash, lower case for the others. -/
def canonicalCase : Bool → GoString → GoString
  | _, [] => []
  | upper, c :: rest =>
    let c1 : Byte :=
      if upper ∧ ch 'a' ≤ c ∧ c ≤ ch 'z' then c - 32
      else if !upper ∧ ch 'A' ≤ c ∧ c ≤ ch 'Z' then c + 32
      else c
    c1 :: canonicalCase (c1 == ch '-') rest

/-- Transcription of `canonicalMIMEHeaderKey(a)`: a key holding a byte that is no token byte
is returned unchanged (`ok` is false unless all such bytes are spaces). -/
def canonicalMIMEHeaderKey (a : GoString) : GoString × Bool :=
  if a.any (fun c => !validHeaderFieldByte c && c != ch ' ') then (a, false)
  else if a.any (fun c => !validHeaderFieldByte c) then (a, true)
  else (canonicalCase true a, true)

/-- Loop of `CanonicalMIMEHeaderKey(s)` over the bytes still to check. -/
def quickCheck (s : GoString) : Bool → GoString → GoString
  | _, [] => s
  | upper, c :: rest =>
    if !validHeaderFieldByte c then s
    else if upper ∧ ch 'a' ≤ c ∧ c ≤ ch 'z' then (canonicalMIMEHeaderKey s).1
    else if !upper ∧ ch 'A' ≤ c ∧ c ≤ ch 'Z' then (canonicalMIMEHeaderKey s).1
    else quickCheck s (c == ch '-') rest

/-- Transcription of `textproto.CanonicalMIMEHeaderKey(s)`. -/
def CanonicalMIMEHeaderKey (s : GoString) : GoString := quickCheck s true s

end textproto

namespace Header

/-- The map read `h[key]` (`nil` when the key is absent). -/
def lookup : Header → GoString → List GoString
  | [], _ => []
  | (k, vs) :: rest, key => if k = key then vs else lookup rest key

/-- The map write `h[key] = values`. -/
def store : Header → GoString → List GoString → Header
  | [], key, values => [(key, values)]
  | (k, vs) :: rest, key, values =>
    if k = key then (key, values) :: rest else (k, vs) :: store rest key values

/-- The map removal `delete(h, key)`. -/
def delete (h : Header) (key : GoString) : Header := h.filter (fun e => e.1 ≠ key)

/-- Transcription of `Header.Add`. -/
def Add (h : Header) (key value : GoString) : Header :=
  let key := textproto.CanonicalMIMEHeaderKey key
  store h key (lookup h key ++ [value])

/-- Transcription of `Header.Set`. -/
def Set (h : Header) (key value : GoString) : Header :=
  store h (textproto.CanonicalMIMEHeaderKey key) [value]

/-- Transcription of `Header.Get`: the first value of the key, `""` if there is none. -/
def Get (h : Header) (key : GoString) : GoString :=
  match lookup h (textproto.CanonicalMIMEHeaderKey key) with
  | [] => []
  | v :: _ => v

/-- Transcription of `Header.Values`. -/
def Values (h : Header) (key : GoString) : List GoString :=
  lookup h (textproto.CanonicalMIMEHeaderKey key)

/-- Transcription of `Header.Del`. -/
def Del (h : Header) (key : GoString) : Header :=
  delete h (textproto.CanonicalMIMEHeaderKey key)

end Header

namespace http

/-- The fields of `http.Request` the gateway reads or sets. For an inbound request `URL` is
the parsed request target and `Host` the Host header. -/
structure Request where
  Method : GoString
  URL : URL
  Header : Header := []
  Body : GoString := []
  Host : GoString := []
  deriving DecidableEq, Repr

/-- The fields of `http.Response` the gateway reads. -/
structure Response where
  StatusCode : Nat
  Header : Header := []
  Body : GoString := []
  deriving DecidableEq, Repr

/-- Errors returned by `http.NewRequest`. -/
inductive RequestError
  | invalidMethod (method : GoString)
  | parse (err : url.Error)
  deriving DecidableEq, Repr

/-- Transcription of `validMethod`: a non-empty sequence of token bytes. -/
def validMethod (method : GoString) : Bool :=
  method.length > 0 && method.all textproto.validHeaderFieldByte

/-- Transcription of `hasPort`: `strings.LastIndex(s, ":") > strings.LastIndex(s, "]")`. -/
def hasPort (s : GoString) : Bool :=
  match strings.LastIndexByte (ch ':') s, strings.LastIndexByte (ch ']') s with
  | some i, some j => i > j
  | some _, none => true
  | none, _ => false

/-- Transcription of `removeEmptyPort`. -/
def removeEmptyPort (host : GoString) : GoString :=
  if hasPort host ∧ strings.HasSuffix host (gs ":") then host.dropLast else host

/-- Transcription of `http.NewRequest(method, url, body)`: the method is checked, the URL
text is parsed, and the new request has an empty header. -/
def NewRequest (method rawurl body : GoString) : Except RequestError Request :=
  let method := if method = [] then gs "GET" else method
  if !validMethod method then .error (.invalidMethod method)
  else
    match url.Parse rawurl with
    | .error err => .error (.parse err)
    | .ok u =>
      let host := removeEmptyPort u.Host
      .ok { Method := method, URL := { u with Host := host }, Header := [], Body := body,
            Host := host }

/-- A call on the network: `client.Get(url)` of the health probe (5 s timeout) or
`client.Do(req)` of the proxy (30 s timeout). -/
inductive NetCall
  | get (url : GoString)
  | roundTrip (req : Request)
  deriving DecidableEq, Repr

/-- The network as seen by the gateway: what `client.Get` and `client.Do` return, given the
calls made before (`past`, oldest first) and the call. An error is given by its text
(`err.Error()`). -/
structure Network where
  Get : List NetCall → GoString → Except GoString Response
  Do : List NetCall → Request → Except GoString Response

end http

/-! ## gin: the response side of `gin.Context` -/

namespace gin

/-- A value placed in a `gin.H`: a string, a string built as `pre + err.Error()` from an
error of the library, a `map[string]string`, or a `[]string`. -/
inductive Value
  | str (s : GoString)
  | errorText (pre : GoString) (err : http.RequestError)
  | strMap (m : List (GoString × GoString))
  | strList (l : List GoString)
  deriving DecidableEq, Repr

/-- The type `gin.H` (`map[string]any`), keys in the order of the literal. -/
abbrev H := List (GoString × Value)

/-- What has been written to the response body: the JSON rendering of an object, or bytes. -/
inductive BodyPart
  | json (obj : H)
  | bytes (b : GoString)
  deriving DecidableEq, Repr

/-- The state of gin's `responseWriter`: the status to send (200 until set), the header
map, the body parts written so far, and whether the header has been sent. -/
structure ResponseWriter where
  status : Nat := 200
  header : Header := []
  body : List BodyPart := []
  written : Bool := false
  deriving DecidableEq, Repr

/-- The part of `gin.Context` the handlers use: the inbound request and the writer. -/
structure Context where
  Request : http.Request
  Writer : ResponseWriter := {}
  deriving DecidableEq, Repr

namespace ResponseWriter

/-- Transcription of `(*responseWriter).WriteHeader(code)`: the status is changed only to a
positive code and only while the header has not been sent. -/
def WriteHeader (w : ResponseWriter) (code : Nat) : ResponseWriter :=
  if code > 0 ∧ w.status ≠ code then
    if w.written then w else { w with status := code }
  else w

/-- Transcription of `(*responseWriter).WriteHeaderNow`. -/
def WriteHeaderNow (w : ResponseWriter) : ResponseWriter := { w with written := true }

/-- Transcription of `(*responseWriter).Write(data)`. -/
def Write (w : ResponseWriter) (part : BodyPart) : ResponseWriter :=
  { w.WriteHeaderNow with body := w.body ++ [part] }

end ResponseWriter

/-- Transcription of `bodyAllowedForStatus`. -/
def bodyAllowedForStatus (status : Nat) : Bool :=
  !((100 ≤ status && status ≤ 199) || status == 204 || status == 304)

/-- Transcription of `writeContentType(w, value)` of gin's render package. -/
def writeContentType (w : ResponseWriter) (value : List GoString) : ResponseWriter :=
  if (Header.lookup w.header (gs "Content-Type")).length = 0 then
    { w with header := Header.store w.header (gs "Content-Type") value }
  else w

/-- The value `jsonContentType`. -/
def jsonContentType : List GoString := [gs "application/json; charset=utf-8"]

namespace Context

/-- Transcription of `(*Context).Status(code)`. -/
def Status (c : Context) (code : Nat) : Context :=
  { c with Writer := c.Writer.WriteHeader code }

/-- Transcription of `(*Context).Header(key, value)`: an empty value deletes the key, any
other value replaces what the key had (`Header().Set`). -/
def Header (c : Context) (key value : GoString) : Context :=
  if value = [] then { c with Writer := { c.Writer with header := c.Writer.header.Del key } }
  else { c with Writer := { c.Writer with header := c.Writer.header.Set key value } }

/-- Transcription of `(*Context).JSON(code, obj)`, that is `Render(code, render.JSON)`. -/
def JSON (c : Context) (code : Nat) (obj : H) : Context :=
  let c1 := c.Status code
  if !bodyAllowedForStatus code then
    { c1 with Writer := (writeContentType c1.Writer jsonContentType).WriteHeaderNow }
  else
    { c1 with Writer := (writeContentType c1.Writer jsonContentType).Write (.json obj) }

end Context

/-- The context on entry to a route handler for the inbound request `req`: nothing has been
written, the status is gin's default 200, and the response header map holds what earlier
middleware (CORS) has set, `hdr`. -/
def entry (req : http.Request) (hdr : List (GoString × List GoString)) : Context :=
  { Request := req, Writer := { header := hdr } }

/-- The field `key` of the JSON object written as the response body, if the body is one JSON
object with that field. -/
def jsonField (c : Context) (key : GoString) : Option Value :=
  match c.Writer.body with
  | [.json obj] => (obj.find? (fun e => e.1 = key)).map (·.2)
  | _ => none

end gin

/-- Go `io.Copy(c.Writer, body)`: the bytes of `body` are written to the response; nothing
is written (no `Write` call) when the body is empty. -/
def ioCopy (c : gin.Context) (body : GoString) : gin.Context :=
  if body = [] then c else { c with Writer := c.Writer.Write (.bytes body) }

/-! ## The gateway (`api-gateway/main.go`) -/

open http in
/-- Transcription of `isServiceHealthy(serviceURL)` (main.go 86-100): the verdict and the
network calls issued. `past` holds the calls made before. -/
def isServiceHealthy (net : Network) (past : List NetCall) (serviceURL : GoString) :
    Bool × List NetCall :=
  if serviceURL = [] then (false, [])
  else
    match net.Get past (serviceURL ++ gs "/health") with
    | .error _ => (false, [.get (serviceURL ++ gs "/health")])
    | .ok resp => (resp.StatusCode == 200, [.get (serviceURL ++ gs "/health")])

/-- The local `proxyURL` of the proxy handler (main.go 124):
`target.ResolveReference(&url.URL\x7bPath: path\x7d)`. -/
def proxyURL (target : URL) (path : GoString) : URL :=
  url.ResolveReference target { Path := path }

/-- The loop "Copy headers" (main.go 136-140): every value of every inbound header is added
to the new request with `req.Header.Add`. -/
def copyRequestHeaders (inbound : Header) (h : Header) : Header :=
  inbound.foldl (fun h e => e.2.foldl (fun h value => Header.Add h e.1 value) h) h

/-- The loop "Copy response headers" (main.go 160-164): every value of every upstream header
is passed to `c.Header`. -/
def copyResponseHeaders (upstream : Header) (c : gin.Context) : gin.Context :=
  upstream.foldl (fun c e => e.2.foldl (fun c value => c.Header e.1 value) c) c

open http in
/-- The steps "Create new request", "Copy headers" and "Add original host header if not
present" of the proxy handler (main.go 128-145), for the inbound request `r` and the
upstream URL `proxyURL`: the request handed to `client.Do`, or the error of
`http.NewRequest`. -/
def buildRequest (proxyURL : URL) (r : Request) : Except RequestError Request :=
  match NewRequest r.Method (url.String proxyURL) r.Body with
  | .error err => .error err
  | .ok req0 =>
    let req1 : Request := { req0 with Header := copyRequestHeaders r.Header req0.Header }
    if req1.Header.Get (gs "X-Forwarded-Host") = [] then
      .ok { req1 with Header := req1.Header.Set (gs "X-Forwarded-Host") r.Host }
    else .ok req1

set_option linter.unusedVariables false in
open http gin in
/-- Transcription of the handler returned by `createProxyHandler(targetURL, basePath)`
(main.go 102-170), run on the context `c`: the context after the handler and the network
calls it issued. -/
def createProxyHandler (net : Network) (targetURL basePath : GoString) (past : List NetCall)
    (c : Context) : Context × List NetCall :=
  if targetURL = [] then
    (c.JSON 503 [(gs "error", .str (gs "Service is not configured"))], [])
  else
    match url.Parse targetURL with
    | .error err =>
      (c.JSON 500 [(gs "error", .errorText (gs "Invalid service URL: ") (.parse err))], [])
    | .ok target =>
      let path := c.Request.URL.Path
      let proxyURL := proxyURL target path
      match buildRequest proxyURL c.Request with
      | .error err => (c.JSON 500 [(gs "error", .errorText [] err)], [])
      | .ok req =>
        match net.Do past req with
        | .error err =>
          (c.JSON 502 [(gs "error", .str (gs "Cannot connect to service: " ++ err)),
                       (gs "service_url", .str (url.String proxyURL))],
           [.roundTrip req])
        | .ok resp =>
          let c1 := copyResponseHeaders resp.Header c
          let c2 := c1.Status resp.StatusCode
          (ioCopy c2 resp.Body, [.roundTrip req])

/-- The map literal `services` of the health handler (main.go 35-38). -/
def services (userServiceURL taskServiceURL : GoString) : List (GoString × GoString) :=
  [(gs "user_service", userServiceURL), (gs "task_service", taskServiceURL)]

open http in
/-- The loop of the health handler (main.go 40-46) over the entries of `services` in the
order `entries`: the status so far and the calls issued so far. -/
def healthLoop (net : Network) (past : List NetCall) :
    List (GoString × GoString) → GoString × List NetCall → GoString × List NetCall
  | [], acc => acc
  | (_, serviceURL) :: rest, (status, calls) =>
    let r := isServiceHealthy net (past ++ calls) serviceURL
    healthLoop net past rest (if !r.1 then gs "DEGRADED" else status, calls ++ r.2)

open http gin in
/-- Transcription of the `GET /health` handler (main.go 34-53). `taskFirst` selects the
order in which `range services` visits the two entries, `now` is
`time.Now().Format(time.RFC3339)`. -/
def healthHandler (net : Network) (userServiceURL taskServiceURL : GoString)
    (taskFirst : Bool) (now : GoString) (past : List NetCall) (c : Context) :
    Context × List NetCall :=
  let services := services userServiceURL taskServiceURL
  let r := healthLoop net past (if taskFirst then services.reverse else services)
    (gs "OK", [])
  (c.JSON 200 [(gs "status", .str r.1), (gs "services", .strMap services),
               (gs "timestamp", .str now)],
   r.2)

/-! ## The route table (`main`, main.go 34-75) and gin's router

gin's router is modelled by the decision it takes for a method and a path (`dispatch`): the
handler chain of the route that matches, a trailing-slash redirect, or "no route". The two
kinds of pattern the gateway registers are covered: a static pattern matches the path equal
to it, a catch-all pattern `/p/*name` matches every path that starts with `/p/`. When no
route of the method matches, the request is redirected if (`RedirectTrailingSlash`, on by
default) the method is not CONNECT, the path is not "/" and a route of the method matches
the path with its trailing slash added or removed (301 for GET, 307 otherwise); otherwise it
has no route, which gin answers with its 404 reply.

Only the decision is modelled. What the middleware registered with `r.Use` (main.go 18-24,
the CORS policy) writes in front of a route handler and of the 404 reply, and the text of
the redirect and of the 404 reply, are outside this model. -/

namespace gin

/-- The two backends of the gateway. -/
inductive Backend
  | user
  | task
  deriving DecidableEq, Repr

end gin

/-- The target URL with which `main` creates the proxy handler of a backend:
`createProxyHandler(userServiceURL, "")` for the routes under "/users" (main.go 56-57),
`createProxyHandler(taskServiceURL, "")` for those under "/tasks" (main.go 60-61). -/
def targetURLOf (userServiceURL taskServiceURL : GoString) : gin.Backend → GoString
  | .user => userServiceURL
  | .task => taskServiceURL

/-! ## Observations used in the statements -/

/-- The hop-by-hop header names of HTTP/1.1 (RFC 2616 section 13.5.1), in canonical form:
the notion the specification's glossary refers to. The gateway's code has no such list. -/
def hopByHopHeaders : List GoString :=
  [gs "Connection", gs "Keep-Alive", gs "Proxy-Authenticate", gs "Proxy-Authorization",
   gs "Te", gs "Trailer", gs "Trailers", gs "Transfer-Encoding", gs "Upgrade"]

/-- A header map as Go's HTTP server hands it to a handler: no key occurs twice (it is a
map) and every key is in canonical form. -/
def Header.WellFormed (h : Header) : Prop :=
  (h.map Prod.fst).Nodup ∧ ∀ e ∈ h, textproto.CanonicalMIMEHeaderKey e.1 = e.1

/-- A network on which every call fails with "connection refused". -/
def deadNetwork : http.Network :=
  { Get := fun _ _ => .error (gs "connection refused"),
    Do := fun _ _ => .error (gs "connection refused") }

/-- A network on which every call is answered by `resp`. -/
def constNetwork (resp : http.Response) : http.Network :=
  { Get := fun _ _ => .ok resp, Do := fun _ _ => .ok resp }

/-- The bytes `escape` writes for one byte of a path. -/
def escapeByte (c : Byte) : GoString :=
  if url.shouldEscape c .encodePath then
    [ch '%', url.upperhex.getD (c.val >>> 4) 0, url.upperhex.getD (c.val &&& 15) 0]
  else [c]

/-- A path element that is neither `.` nor `..`. -/
def plainElem (e : GoString) : Prop := e ≠ gs "." ∧ e ≠ gs ".."

instance instDecidablePlainElem (e : GoString) : Decidable (plainElem e) := by
  unfold plainElem
  exact inferInstance

/-! ## Theorems -/

open http gin

/-- C1: a proxy handler created with an empty target URL answers every request with status
503 and the JSON body with the single field error = "Service is not configured", and issues
no network call. -/
theorem C1_unconfigured_service_unavailable (net : Network) (basePath : GoString)
    (past : List NetCall) (req : Request) (hdr : Header) :
    (createProxyHandler net [] basePath past (entry req hdr)).1.Writer.status = 503 ∧
    (createProxyHandler net [] basePath past (entry req hdr)).1.Writer.body =
      [.json [(gs "error", .str (gs "Service is not configured"))]] ∧
    (createProxyHandler net [] basePath past (entry req hdr)).2 = [] := by
  simp [createProxyHandler, Context.JSON, Context.Status, ResponseWriter.WriteHeader,
    ResponseWriter.Write, ResponseWriter.WriteHeaderNow, writeContentType, entry,
    bodyAllowedForStatus]
  split <;> simp

/-! ### The response side: header copying leaves status and body alone -/

theorem Context_Header_status (c : Context) (key value : GoString) :
    (c.Header key value).Writer.status = c.Writer.status ∧
    (c.Header key value).Writer.body = c.Writer.body ∧
    (c.Header key value).Writer.written = c.Writer.written := by
  unfold Context.Header
  split <;> simp

theorem copyResponseHeaders_status (upstream : Header) (c : Context) :
    (copyResponseHeaders upstream c).Writer.status = c.Writer.status ∧
    (copyResponseHeaders upstream c).Writer.body = c.Writer.body ∧
    (copyResponseHeaders upstream c).Writer.written = c.Writer.written := by
  have inner : ∀ (vs : List GoString) (k : GoString) (c : Context),
      (vs.foldl (fun c value => c.Header k value) c).Writer.status = c.Writer.status ∧
      (vs.foldl (fun c value => c.Header k value) c).Writer.body = c.Writer.body ∧
      (vs.foldl (fun c value => c.Header k value) c).Writer.written = c.Writer.written := by
    intro vs k
    induction vs with
    | nil => intro c; simp
    | cons v vs ih =>
      intro c
      have h1 := ih (c.Header k v)
      have h2 := Context_Header_status c k v
      simp only [List.foldl_cons]
      exact ⟨h1.1.trans h2.1, h1.2.1.trans h2.2.1, h1.2.2.trans h2.2.2⟩
  unfold copyResponseHeaders
  induction upstream generalizing c with
  | nil => simp
  | cons e rest ih =>
    simp only [List.foldl_cons]
    have h1 := ih (e.2.foldl (fun c value => c.Header e.1 value) c)
    have h2 := inner e.2 e.1 c
    exact ⟨h1.1.trans h2.1, h1.2.1.trans h2.2.1, h1.2.2.trans h2.2.2⟩

/-- C4: when the upstream call fails with error text `e`, the handler answers 502 with the
JSON object whose error field is "Cannot connect to service: " followed by `e` and whose
service_url field is the text of the resolved upstream URL; the one network call it made is
that upstream call. -/
theorem C4_unreachable_bad_gateway (net : Network) (targetURL basePath : GoString)
    (past : List NetCall) (r : Request) (hdr : Header) (target : URL) (req : Request)
    (e : GoString)
    (hne : targetURL ≠ [])
    (hparse : url.Parse targetURL = .ok target)
    (hreq : buildRequest (proxyURL target r.URL.Path) r = .ok req)
    (hfail : net.Do past req = .error e) :
    (createProxyHandler net targetURL basePath past (entry r hdr)).1.Writer.status = 502 ∧
    (createProxyHandler net targetURL basePath past (entry r hdr)).1.Writer.body =
      [.json [(gs "error", .str (gs "Cannot connect to service: " ++ e)),
              (gs "service_url", .str (url.String (proxyURL target r.URL.Path)))]] ∧
    (createProxyHandler net targetURL basePath past (entry r hdr)).2 = [.roundTrip req] := by
  simp [createProxyHandler, hne, hparse, entry, hreq, hfail, Context.JSON, Context.Status,
    ResponseWriter.WriteHeader, ResponseWriter.Write, ResponseWriter.WriteHeaderNow,
    writeContentType, bodyAllowedForStatus]
  split <;> simp

/-- C4, at base URL "http://u:8081" and path "/users/5" on a network that refuses every
connection: status 502 and service_url "http://u:8081/users/5". -/
theorem C4_unreachable_bad_gateway_witness :
    (createProxyHandler deadNetwork (gs "http://u:8081") [] []
      (entry { Method := gs "GET", URL := { Path := gs "/users/5" } } [])).1.Writer.status
      = 502 ∧
    (createProxyHandler deadNetwork (gs "http://u:8081") [] []
      (entry { Method := gs "GET", URL := { Path := gs "/users/5" } } [])).1.Writer.body =
      [.json [(gs "error", .str (gs "Cannot connect to service: connection refused")),
              (gs "service_url", .str (gs "http://u:8081/users/5"))]] := by
  have h := C4_unreachable_bad_gateway deadNetwork (gs "http://u:8081") [] []
    { Method := gs "GET", URL := { Path := gs "/users/5" } } []
    { Scheme := gs "http", Host := gs "u:8081" }
    { Method := gs "GET",
      URL := { Scheme := gs "http", Host := gs "u:8081", Path := gs "/users/5" },
      Header := [(gs "X-Forwarded-Host", [[]])], Body := [], Host := gs "u:8081" }
    (gs "connection refused") (by decide) (by decide) (by decide) (by decide)
  refine ⟨h.1, h.2.1.trans ?_⟩
  decide

/-- C5: when the upstream call succeeds with status code `s` (a positive code, as every
HTTP status code is) and body `b`, the response has status `s` and its body is exactly the
bytes `b`. -/
theorem C5_status_and_body_relayed (net : Network) (targetURL basePath : GoString)
    (past : List NetCall) (r : Request) (hdr : Header) (target : URL) (req : Request)
    (resp : Response)
    (hne : targetURL ≠ [])
    (hparse : url.Parse targetURL = .ok target)
    (hreq : buildRequest (proxyURL target r.URL.Path) r = .ok req)
    (hok : net.Do past req = .ok resp)
    (hs : 0 < resp.StatusCode) :
    (createProxyHandler net targetURL basePath past (entry r hdr)).1.Writer.status
      = resp.StatusCode ∧
    (createProxyHandler net targetURL basePath past (entry r hdr)).1.Writer.body =
      (if resp.Body = [] then [] else [.bytes resp.Body]) := by
  have hc := copyResponseHeaders_status resp.Header (entry r hdr)
  simp only [createProxyHandler, hne, if_false, hparse, entry, hreq, hok]
  simp only [entry] at hc
  by_cases hb : resp.Body = []
  · simp only [ioCopy, hb, Context.Status, ResponseWriter.WriteHeader, hc, if_true]
    split
    · simp [hc]
    · simp only [hc, and_true]
      omega
  · simp only [ioCopy, hb, Context.Status, ResponseWriter.WriteHeader, hc,
      ResponseWriter.Write, ResponseWriter.WriteHeaderNow, if_false]
    split
    · simp [hc]
    · simp only [hc, List.nil_append, and_true]
      omega

/-- C5, at an upstream answer 404 with body "gone" for GET /users/5 behind
"http://u:8081": the response is 404 with body "gone". -/
theorem C5_status_and_body_relayed_witness :
    (createProxyHandler (constNetwork { StatusCode := 404, Body := gs "gone" })
      (gs "http://u:8081") [] []
      (entry { Method := gs "GET", URL := { Path := gs "/users/5" } } [])).1.Writer.status
      = 404 ∧
    (createProxyHandler (constNetwork { StatusCode := 404, Body := gs "gone" })
      (gs "http://u:8081") [] []
      (entry { Method := gs "GET", URL := { Path := gs "/users/5" } } [])).1.Writer.body
      = [.bytes (gs "gone")] :=
  C5_status_and_body_relayed (constNetwork { StatusCode := 404, Body := gs "gone" })
    (gs "http://u:8081") [] []
    { Method := gs "GET", URL := { Path := gs "/users/5" } } []
    { Scheme := gs "http", Host := gs "u:8081" }
    { Method := gs "GET",
      URL := { Scheme := gs "http", Host := gs "u:8081", Path := gs "/users/5" },
      Header := [(gs "X-Forwarded-Host", [[]])], Body := [], Host := gs "u:8081" }
    { StatusCode := 404, Body := gs "gone" }
    (by decide) (by decide) (by decide) rfl (by decide)

/-- C6 (the code at the failing input): an upstream response with the two header lines
Set-Cookie: a=1 and Set-Cookie: b=2 reaches the caller with the single value b=2, because
`c.Header` replaces the values of the key at each call. -/
theorem C6_set_cookie_keeps_last_value_only :
    Header.Values
      (createProxyHandler
        (constNetwork { StatusCode := 200,
                        Header := [(gs "Set-Cookie", [gs "a=1", gs "b=2"])],
                        Body := gs "ok" })
        (gs "http://u:8081") [] []
        (entry { Method := gs "GET", URL := { Path := gs "/users" } } [])).1.Writer.header
      (gs "Set-Cookie") = [gs "b=2"] := by
  decide

theorem WriteHeader_fresh (w : ResponseWriter) (code : Nat) (hw : w.written = false)
    (hcode : 0 < code) :
    (w.WriteHeader code).status = code ∧ (w.WriteHeader code).body = w.body ∧
    (w.WriteHeader code).written = false := by
  unfold ResponseWriter.WriteHeader
  by_cases h : w.status = code
  · simp [h, hw]
  · simp [h, hw, hcode]

theorem writeContentType_keeps (w : ResponseWriter) (value : List GoString) :
    (writeContentType w value).status = w.status ∧ (writeContentType w value).body = w.body ∧
    (writeContentType w value).written = w.written := by
  unfold writeContentType
  split <;> simp

theorem JSON_entry (req : Request) (hdr : Header) (code : Nat) (obj : H)
    (hcode : 0 < code) (hbody : bodyAllowedForStatus code = true) :
    ((entry req hdr).JSON code obj).Writer.status = code ∧
    ((entry req hdr).JSON code obj).Writer.body = [.json obj] := by
  have h1 := WriteHeader_fresh (entry req hdr).Writer code rfl hcode
  have h2 := writeContentType_keeps ((entry req hdr).Writer.WriteHeader code) jsonContentType
  simp only [Context.JSON, hbody, Context.Status, ResponseWriter.Write,
    ResponseWriter.WriteHeaderNow, Bool.not_true, Bool.false_eq_true, if_false]
  refine ⟨h2.1.trans h1.1, ?_⟩
  rw [h2.2.1, h1.2.1]
  rfl

theorem healthLoop_two (net : Network) (past : List NetCall) (n1 n2 u1 u2 : GoString) :
    (healthLoop net past [(n1, u1), (n2, u2)] (gs "OK", [])).1 =
      (if (isServiceHealthy net past u1).1 = true ∧
          (isServiceHealthy net (past ++ (isServiceHealthy net past u1).2) u2).1 = true
       then gs "OK" else gs "DEGRADED") := by
  simp only [healthLoop, List.nil_append, List.append_nil]
  generalize isServiceHealthy net past u1 = r1
  generalize isServiceHealthy net (past ++ r1.2) u2 = r2
  rcases r1 with ⟨b1, c1⟩
  rcases r2 with ⟨b2, c2⟩
  cases b1 <;> cases b2 <;> simp

/-- C7: the status field of the health response is "OK" exactly when both probes of the
request find their backend healthy, and "DEGRADED" otherwise, in whichever order the two
backends are visited; a backend with an empty URL makes it "DEGRADED". -/
theorem C7_health_status_unanimous (net : Network) (userServiceURL taskServiceURL : GoString)
    (taskFirst : Bool) (now : GoString) (past : List NetCall) (req : Request)
    (hdr : Header) :
    (jsonField
        (healthHandler net userServiceURL taskServiceURL taskFirst now past
          (entry req hdr)).1 (gs "status") =
      some (.str
        (if (isServiceHealthy net past
              (if taskFirst then taskServiceURL else userServiceURL)).1 = true ∧
            (isServiceHealthy net
              (past ++ (isServiceHealthy net past
                (if taskFirst then taskServiceURL else userServiceURL)).2)
              (if taskFirst then userServiceURL else taskServiceURL)).1 = true
         then gs "OK" else gs "DEGRADED"))) ∧
    (userServiceURL = [] ∨ taskServiceURL = [] →
      jsonField
        (healthHandler net userServiceURL taskServiceURL taskFirst now past
          (entry req hdr)).1 (gs "status") = some (.str (gs "DEGRADED"))) := by
  have key : jsonField
        (healthHandler net userServiceURL taskServiceURL taskFirst now past
          (entry req hdr)).1 (gs "status") =
      some (.str
        (if (isServiceHealthy net past
              (if taskFirst then taskServiceURL else userServiceURL)).1 = true ∧
            (isServiceHealthy net
              (past ++ (isServiceHealthy net past
                (if taskFirst then taskServiceURL else userServiceURL)).2)
              (if taskFirst then userServiceURL else taskServiceURL)).1 = true
         then gs "OK" else gs "DEGRADED")) := by
    unfold jsonField healthHandler
    simp only
    rw [(JSON_entry req hdr 200 _ (by decide) (by decide)).2]
    cases taskFirst
    · simp only [services, Bool.false_eq_true, if_false]
      rw [healthLoop_two]
      rfl
    · simp only [services, if_true, List.reverse_cons, List.reverse_nil, List.nil_append,
        List.singleton_append]
      rw [healthLoop_two]
      rfl
  refine ⟨key, ?_⟩
  intro h
  rw [key]
  have hempty : ∀ p, (isServiceHealthy net p []).1 = false := by
    intro p; simp [isServiceHealthy]
  cases taskFirst <;> rcases h with h | h <;> subst h <;> simp [hempty]

/-- C8: `isServiceHealthy(url)` is true exactly when `url` is not empty and the GET of
`url + "/health"` returns without error a response of status 200; for an empty `url` no
probe is issued, and otherwise the one call issued is that GET. -/
theorem C8_isServiceHealthy_iff (net : Network) (past : List NetCall) (serviceURL : GoString) :
    ((isServiceHealthy net past serviceURL).1 = true ↔
      serviceURL ≠ [] ∧
      ∃ resp, net.Get past (serviceURL ++ gs "/health") = .ok resp ∧ resp.StatusCode = 200) ∧
    (isServiceHealthy net past []).2 = [] ∧
    (isServiceHealthy net past []).1 = false ∧
    (serviceURL ≠ [] →
      (isServiceHealthy net past serviceURL).2 = [.get (serviceURL ++ gs "/health")]) := by
  refine ⟨?_, by simp [isServiceHealthy], by simp [isServiceHealthy], ?_⟩
  · unfold isServiceHealthy
    by_cases h : serviceURL = []
    · simp [h]
    · simp only [h, if_false]
      cases hg : net.Get past (serviceURL ++ gs "/health") with
      | error e => simp
      | ok resp => simp [h]
  · intro h
    unfold isServiceHealthy
    simp only [h, if_false]
    cases net.Get past (serviceURL ++ gs "/health") <;> rfl

/-! ### The request side: what the header copy puts on the upstream request -/

theorem Header_lookup_store (h : Header) (k k' : GoString) (vs : List GoString) :
    Header.lookup (Header.store h k vs) k' = if k = k' then vs else Header.lookup h k' := by
  induction h with
  | nil =>
    by_cases hk : k = k' <;> simp [Header.store, Header.lookup, hk]
  | cons e rest ih =>
    obtain ⟨k0, vs0⟩ := e
    by_cases h0 : k0 = k
    · subst h0
      by_cases hk : k0 = k' <;> simp [Header.store, Header.lookup, hk]
    · by_cases hk : k = k'
      · subst hk
        simp [Header.store, Header.lookup, h0, ih]
      · by_cases h1 : k0 = k'
        · subst h1
          simp [Header.store, Header.lookup, h0, hk]
        · simp [Header.store, Header.lookup, h0, h1, hk, ih]

theorem Header_lookup_absent (h : Header) (k : GoString) (hk : k ∉ h.map Prod.fst) :
    Header.lookup h k = [] := by
  induction h with
  | nil => rfl
  | cons e rest ih =>
    obtain ⟨k0, vs0⟩ := e
    simp only [List.map_cons, List.mem_cons, not_or] at hk
    have h0 : ¬ k0 = k := fun heq => hk.1 heq.symm
    simp [Header.lookup, h0, ih hk.2]

theorem Header_lookup_mem (h : Header) (k : GoString) (vs : List GoString)
    (hnd : (h.map Prod.fst).Nodup) (hmem : (k, vs) ∈ h) : Header.lookup h k = vs := by
  induction h with
  | nil => simp at hmem
  | cons e rest ih =>
    obtain ⟨k0, vs0⟩ := e
    simp only [List.map_cons, List.nodup_cons] at hnd
    rcases List.mem_cons.mp hmem with heq | hrest
    · cases heq
      simp [Header.lookup]
    · have hne : ¬ k0 = k := by
        intro heq
        subst heq
        exact hnd.1 (List.mem_map.mpr ⟨(k0, vs), hrest, rfl⟩)
      simp [Header.lookup, hne, ih hnd.2 hrest]

theorem Header_lookup_Add (h : Header) (k v k' : GoString) :
    Header.lookup (Header.Add h k v) k' =
      if textproto.CanonicalMIMEHeaderKey k = k' then Header.lookup h k' ++ [v]
      else Header.lookup h k' := by
  unfold Header.Add
  simp only [Header_lookup_store]
  by_cases hk : textproto.CanonicalMIMEHeaderKey k = k'
  · simp [hk]
  · simp [hk]

theorem Header_lookup_foldl_Add (vs : List GoString) (h : Header) (k k' : GoString) :
    Header.lookup (vs.foldl (fun h value => Header.Add h k value) h) k' =
      if textproto.CanonicalMIMEHeaderKey k = k' then Header.lookup h k' ++ vs
      else Header.lookup h k' := by
  induction vs generalizing h with
  | nil => simp
  | cons v vs ih =>
    simp only [List.foldl_cons, ih, Header_lookup_Add]
    by_cases hk : textproto.CanonicalMIMEHeaderKey k = k' <;> simp [hk]

theorem Header_lookup_copyRequestHeaders (inbound h : Header) (k' : GoString)
    (wf : Header.WellFormed inbound) :
    Header.lookup (copyRequestHeaders inbound h) k' =
      Header.lookup h k' ++ Header.lookup inbound k' := by
  unfold copyRequestHeaders
  induction inbound generalizing h with
  | nil => simp [Header.lookup]
  | cons e rest ih =>
    obtain ⟨k0, vs0⟩ := e
    obtain ⟨hnd, hcanon⟩ := wf
    simp only [List.map_cons, List.nodup_cons] at hnd
    have wfrest : Header.WellFormed rest :=
      ⟨hnd.2, fun e he => hcanon e (List.mem_cons_of_mem _ he)⟩
    have hk0 : textproto.CanonicalMIMEHeaderKey k0 = k0 := hcanon (k0, vs0) (List.mem_cons_self _ _)
    simp only [List.foldl_cons]
    rw [ih _ wfrest, Header_lookup_foldl_Add, hk0]
    by_cases hk : k0 = k'
    · subst hk
      simp [Header.lookup, Header_lookup_absent rest k0 hnd.1]
    · simp [Header.lookup, hk]

theorem canonical_XForwardedHost :
    textproto.CanonicalMIMEHeaderKey (gs "X-Forwarded-Host") = gs "X-Forwarded-Host" := by
  decide

/-- What `buildRequest` returns when it succeeds: the method (GET for an empty one), the
body, and the header map made by the copy loop and the X-Forwarded-Host step. -/
theorem buildRequest_ok (pu : URL) (r req : Request) (h : buildRequest pu r = .ok req) :
    req.Method = (if r.Method = [] then gs "GET" else r.Method) ∧
    req.Body = r.Body ∧
    req.Header =
      (if Header.Get (copyRequestHeaders r.Header []) (gs "X-Forwarded-Host") = [] then
        Header.Set (copyRequestHeaders r.Header []) (gs "X-Forwarded-Host") r.Host
       else copyRequestHeaders r.Header []) := by
  unfold buildRequest at h
  cases hn : NewRequest r.Method (url.String pu) r.Body with
  | error err => simp [hn] at h
  | ok req0 =>
    have h0 : req0.Method = (if r.Method = [] then gs "GET" else r.Method) ∧
        req0.Body = r.Body ∧ req0.Header = [] := by
      unfold NewRequest at hn
      simp only at hn
      generalize (if r.Method = [] then gs "GET" else r.Method) = m at hn ⊢
      split at hn
      · simp at hn
      · split at hn
        · simp at hn
        · simp only [Except.ok.injEq] at hn
          subst hn
          simp
    simp only [hn, h0.2.2] at h
    split at h <;> simp only [Except.ok.injEq] at h <;> subst h
    · rename_i hx
      simp [h0, hx]
    · rename_i hx
      simp [h0, hx]

/-- Every upstream call the proxy handler issues is `client.Do` on the request built by
`buildRequest` for the parsed target and the inbound path. -/
theorem createProxyHandler_calls (net : Network) (targetURL basePath : GoString)
    (past : List NetCall) (c : Context) (call : NetCall)
    (hcall : call ∈ (createProxyHandler net targetURL basePath past c).2) :
    ∃ target req, url.Parse targetURL = .ok target ∧
      buildRequest (proxyURL target c.Request.URL.Path) c.Request = .ok req ∧
      call = .roundTrip req := by
  unfold createProxyHandler at hcall
  by_cases hne : targetURL = []
  · simp [hne] at hcall
  · simp only [hne, if_false] at hcall
    cases hp : url.Parse targetURL with
    | error err => simp [hp] at hcall
    | ok target =>
      simp only [hp] at hcall
      cases hb : buildRequest (proxyURL target c.Request.URL.Path) c.Request with
      | error err => simp [hb] at hcall
      | ok req =>
        simp only [hb] at hcall
        refine ⟨target, req, rfl, hb, ?_⟩
        cases hd : net.Do past req with
        | error e => simpa [hd] using hcall
        | ok resp => simpa [hd] using hcall

theorem copyRequestHeaders_Get (inbound : Header) (key : GoString)
    (wf : Header.WellFormed inbound) :
    Header.Get (copyRequestHeaders inbound []) key = Header.Get inbound key := by
  unfold Header.Get
  rw [Header_lookup_copyRequestHeaders inbound [] _ wf]
  simp [Header.lookup]

/-- C9 (as amended): the forwarded request's X-Forwarded-Host is the original request's Host
exactly when the inbound request has no X-Forwarded-Host or the first value of the one it
has is empty; when the first value is not empty, the caller's values are forwarded
unchanged. -/
theorem C9_forwarded_host_unless_first_value_nonempty (net : Network)
    (targetURL basePath : GoString) (past : List NetCall) (r : Request) (hdr : Header)
    (req : Request)
    (wf : Header.WellFormed r.Header)
    (hcall : NetCall.roundTrip req ∈
      (createProxyHandler net targetURL basePath past (entry r hdr)).2) :
    (Header.Get r.Header (gs "X-Forwarded-Host") = [] →
      Header.Values req.Header (gs "X-Forwarded-Host") = [r.Host]) ∧
    (Header.Get r.Header (gs "X-Forwarded-Host") ≠ [] →
      Header.Values req.Header (gs "X-Forwarded-Host") =
        Header.Values r.Header (gs "X-Forwarded-Host")) := by
  obtain ⟨target, req', _, hb, heq⟩ := createProxyHandler_calls _ _ _ _ _ _ hcall
  cases heq
  have hreq := (buildRequest_ok _ _ _ hb).2.2
  simp only [entry] at hreq
  rw [copyRequestHeaders_Get _ _ wf] at hreq
  constructor
  · intro hget
    rw [hreq]
    simp only [hget, if_true, Header.Values, Header.Set, canonical_XForwardedHost,
      Header_lookup_store]
  · intro hget
    rw [hreq]
    simp only [hget, if_false, Header.Values, canonical_XForwardedHost]
    rw [Header_lookup_copyRequestHeaders _ _ _ wf]
    simp [Header.lookup]

/-- C9 (as amended), at GET /users behind "http://u:8081" with the inbound header
X-Forwarded-Host: outer.example and Host gw.example: the forwarded request carries
X-Forwarded-Host: outer.example. -/
theorem C9_forwarded_host_unless_first_value_nonempty_witness :
    NetCall.roundTrip
      { Method := gs "GET",
        URL := { Scheme := gs "http", Host := gs "u:8081", Path := gs "/users" },
        Header := [(gs "X-Forwarded-Host", [gs "outer.example"])], Body := [],
        Host := gs "u:8081" } ∈
      (createProxyHandler deadNetwork (gs "http://u:8081") [] []
        (entry { Method := gs "GET", URL := { Path := gs "/users" },
                 Header := [(gs "X-Forwarded-Host", [gs "outer.example"])],
                 Host := gs "gw.example" } [])).2 ∧
    Header.Values
      ([(gs "X-Forwarded-Host", [gs "outer.example"])] : Header) (gs "X-Forwarded-Host")
      = [gs "outer.example"] := by
  have hcall : NetCall.roundTrip
      { Method := gs "GET",
        URL := { Scheme := gs "http", Host := gs "u:8081", Path := gs "/users" },
        Header := [(gs "X-Forwarded-Host", [gs "outer.example"])], Body := [],
        Host := gs "u:8081" } ∈
      (createProxyHandler deadNetwork (gs "http://u:8081") [] []
        (entry { Method := gs "GET", URL := { Path := gs "/users" },
                 Header := [(gs "X-Forwarded-Host", [gs "outer.example"])],
                 Host := gs "gw.example" } [])).2 := by
    decide
  have h := C9_forwarded_host_unless_first_value_nonempty deadNetwork (gs "http://u:8081") []
    []
    { Method := gs "GET", URL := { Path := gs "/users" },
      Header := [(gs "X-Forwarded-Host", [gs "outer.example"])], Host := gs "gw.example" } []
    _
    (by
      refine ⟨by decide, ?_⟩
      intro e he
      simp only [List.mem_singleton] at he
      subst he
      decide)
    hcall
  exact ⟨hcall, (h.2 (by decide)).trans (by decide)⟩

/-- C9 (the claim fails): GET /users with the inbound header line X-Forwarded-Host: (empty
value) and Host gw.example is forwarded with X-Forwarded-Host: gw.example; the header the
caller sent is overwritten. -/
theorem C9_counterexample_empty_value_overwritten :
    (gs "X-Forwarded-Host", [[]]) ∈
      ({ Method := gs "GET", URL := { Path := gs "/users" },
         Header := [(gs "X-Forwarded-Host", [[]])], Host := gs "gw.example" } : Request).Header ∧
    (createProxyHandler deadNetwork (gs "http://u:8081") [] []
      (entry { Method := gs "GET", URL := { Path := gs "/users" },
               Header := [(gs "X-Forwarded-Host", [[]])], Host := gs "gw.example" } [])).2 =
      [.roundTrip
        { Method := gs "GET",
          URL := { Scheme := gs "http", Host := gs "u:8081", Path := gs "/users" },
          Header := [(gs "X-Forwarded-Host", [gs "gw.example"])], Body := [],
          Host := gs "u:8081" }] := by
  decide

/-- C10 (as amended): the forwarded request has the inbound method, and every inbound header
name, other than an X-Forwarded-Host whose first value is empty, is on the forwarded request
with the same values in the same order. -/
theorem C10_headers_and_method_forwarded (net : Network) (targetURL basePath : GoString)
    (past : List NetCall) (r : Request) (hdr : Header) (req : Request)
    (wf : Header.WellFormed r.Header)
    (hmethod : r.Method ≠ [])
    (hcall : NetCall.roundTrip req ∈
      (createProxyHandler net targetURL basePath past (entry r hdr)).2) :
    req.Method = r.Method ∧
    ∀ key values, (key, values) ∈ r.Header →
      (key = gs "X-Forwarded-Host" → Header.Get r.Header (gs "X-Forwarded-Host") ≠ []) →
      Header.lookup req.Header key = values := by
  obtain ⟨target, req', _, hb, heq⟩ := createProxyHandler_calls _ _ _ _ _ _ hcall
  cases heq
  have hok := buildRequest_ok _ _ _ hb
  simp only [entry] at hok
  refine ⟨by simpa [hmethod] using hok.1, ?_⟩
  intro key values hmem hx
  have hcopy : Header.lookup (copyRequestHeaders r.Header []) key = values := by
    rw [Header_lookup_copyRequestHeaders _ _ _ wf, Header_lookup_mem _ _ _ wf.1 hmem]
    simp [Header.lookup]
  rw [hok.2.2, copyRequestHeaders_Get _ _ wf]
  by_cases hget : Header.Get r.Header (gs "X-Forwarded-Host") = []
  · simp only [hget, if_true, Header.Set, canonical_XForwardedHost, Header_lookup_store]
    by_cases hk : gs "X-Forwarded-Host" = key
    · exact absurd hget (hx hk.symm)
    · simp [hk, hcopy]
  · simp only [hget, if_false]
    exact hcopy

/-! ### net/url: escaping a path and resolving it -/

open url url.encoding

set_option maxRecDepth 100000 in
theorem escapeByte_facts : ∀ c : Byte,
    (shouldEscape c encodePath = true →
      ishex (upperhex.getD (c.val >>> 4) 0) = true ∧
      ishex (upperhex.getD (c.val &&& 15) 0) = true ∧
      unhexPair (upperhex.getD (c.val >>> 4) 0) (upperhex.getD (c.val &&& 15) 0) = c ∧
      upperhex.getD (c.val >>> 4) 0 ≠ ch '/' ∧ upperhex.getD (c.val &&& 15) 0 ≠ ch '/') ∧
    (shouldEscape c encodePath = false → c ≠ ch '%') ∧
    (c = ch '/' ∨ c = ch '.' → shouldEscape c encodePath = false) := by
  decide

theorem escape_cons (c : Byte) (s : GoString) :
    escape (c :: s) encodePath = escapeByte c ++ escape s encodePath := by
  simp [escape, escapeByte]

theorem escape_nil : escape [] encodePath = [] := rfl

theorem unescapeCheck_path_plain (c : Byte) (rest : GoString) (hc : c ≠ ch '%') :
    unescapeCheck encodePath (c :: rest) = unescapeCheck encodePath rest := by
  rw [unescapeCheck.eq_def]
  simp [hc]

theorem unescapeCheck_path_escape (a b : Byte) (rest : GoString)
    (ha : ishex a = true) (hb : ishex b = true) :
    unescapeCheck encodePath (ch '%' :: a :: b :: rest) = unescapeCheck encodePath rest := by
  rw [unescapeCheck.eq_def]
  simp [ha, hb]

theorem unescapeDecode_path_plain (c : Byte) (rest : GoString) (hc : c ≠ ch '%') :
    unescapeDecode encodePath (c :: rest) = c :: unescapeDecode encodePath rest := by
  rw [unescapeDecode.eq_def]
  by_cases hplus : c = ch '+'
  · subst hplus
    simp [hc]
  · simp [hc, hplus]

theorem unescapeDecode_path_escape (a b : Byte) (rest : GoString) :
    unescapeDecode encodePath (ch '%' :: a :: b :: rest) =
      unhexPair a b :: unescapeDecode encodePath rest := by
  rw [unescapeDecode.eq_def]
  simp

/-- Unescaping an escaped path succeeds and gives the path back. -/
theorem unescape_escape (p : GoString) :
    unescapeCheck encodePath (escape p encodePath) = .ok () ∧
    unescapeDecode encodePath (escape p encodePath) = p := by
  induction p with
  | nil => exact ⟨rfl, rfl⟩
  | cons c p ih =>
    rw [escape_cons]
    unfold escapeByte
    by_cases hc : shouldEscape c encodePath = true
    · obtain ⟨h1, h2, h3, _⟩ := (escapeByte_facts c).1 hc
      simp only [hc, if_true, List.cons_append, List.nil_append]
      rw [unescapeCheck_path_escape _ _ _ h1 h2, unescapeDecode_path_escape, h3]
      exact ⟨ih.1, by rw [ih.2]⟩
    · have hf : shouldEscape c encodePath = false := by simpa using hc
      have hne := (escapeByte_facts c).2.1 hf
      simp only [hf, Bool.false_eq_true, if_false, List.cons_append, List.nil_append]
      rw [unescapeCheck_path_plain _ _ hne, unescapeDecode_path_plain _ _ hne]
      exact ⟨ih.1, by rw [ih.2]⟩

theorem unescape_escape_ok (p : GoString) :
    unescape (escape p encodePath) encodePath = .ok p := by
  unfold unescape
  rw [(unescape_escape p).1]
  simp [(unescape_escape p).2]

theorem gs_slash : gs "/" = [ch '/'] := by decide

theorem gs_dot : gs "." = [ch '.'] := by decide

theorem gs_dotdot : gs ".." = [ch '.', ch '.'] := by decide

theorem escapeByte_cases (c : Byte) :
    (shouldEscape c encodePath = false ∧ escapeByte c = [c]) ∨
    (shouldEscape c encodePath = true ∧ ∃ a b, a ≠ ch '/' ∧ b ≠ ch '/' ∧
      escapeByte c = [ch '%', a, b]) := by
  unfold escapeByte
  by_cases hc : shouldEscape c encodePath = true
  · right
    obtain ⟨_, _, _, h4, h5⟩ := (escapeByte_facts c).1 hc
    exact ⟨hc, _, _, h4, h5, by simp [hc]⟩
  · left
    have hf : shouldEscape c encodePath = false := by simpa using hc
    exact ⟨hf, by simp [hf]⟩

theorem escape_eq_nil (s : GoString) (h : escape s encodePath = []) : s = [] := by
  cases s with
  | nil => rfl
  | cons c t =>
    rw [escape_cons] at h
    rcases escapeByte_cases c with ⟨_, hb⟩ | ⟨_, a, b, _, _, hb⟩ <;> rw [hb] at h <;> simp at h

theorem escape_eq_dot (s : GoString) (h : escape s encodePath = gs ".") : s = gs "." := by
  rw [gs_dot] at h ⊢
  cases s with
  | nil => simp [escape_nil] at h
  | cons c t =>
    rw [escape_cons] at h
    rcases escapeByte_cases c with ⟨_, hb⟩ | ⟨_, a, b, _, _, hb⟩
    · rw [hb] at h
      simp only [List.singleton_append, List.cons.injEq] at h
      rw [h.1, escape_eq_nil t h.2]
    · rw [hb] at h
      simp at h

theorem escape_eq_dotdot (s : GoString) (h : escape s encodePath = gs "..") : s = gs ".." := by
  rw [gs_dotdot] at h ⊢
  cases s with
  | nil => simp [escape_nil] at h
  | cons c t =>
    rw [escape_cons] at h
    rcases escapeByte_cases c with ⟨_, hb⟩ | ⟨_, a, b, _, _, hb⟩
    · rw [hb] at h
      simp only [List.singleton_append, List.cons.injEq] at h
      have ht : t = gs "." := escape_eq_dot t (by rw [gs_dot]; exact h.2)
      rw [h.1, ht, gs_dot]
    · rw [hb] at h
      simp only [List.cons_append, List.nil_append, List.cons.injEq] at h
      exact absurd h.1 (by decide)

theorem Split_ne_nil (sep : Byte) (s : GoString) : strings.Split sep s ≠ [] := by
  cases s with
  | nil => simp [strings.Split]
  | cons c t =>
    unfold strings.Split
    by_cases hc : c = sep
    · simp [hc]
    · simp only [hc, if_false]
      split <;> simp

theorem Split_cons_sep (sep : Byte) (s : GoString) :
    strings.Split sep (sep :: s) = [] :: strings.Split sep s := by
  simp [strings.Split]

theorem Split_cons_other (sep c : Byte) (s : GoString) (hc : c ≠ sep) :
    ∃ seg segs, strings.Split sep s = seg :: segs ∧
      strings.Split sep (c :: s) = (c :: seg) :: segs := by
  cases hs : strings.Split sep s with
  | nil => exact absurd hs (Split_ne_nil sep s)
  | cons seg segs =>
    refine ⟨seg, segs, rfl, ?_⟩
    rw [strings.Split]
    simp [hc, hs]

theorem Split_append_free (sep : Byte) (l s : GoString) (hl : sep ∉ l) :
    ∃ seg segs, strings.Split sep s = seg :: segs ∧
      strings.Split sep (l ++ s) = (l ++ seg) :: segs := by
  induction l with
  | nil =>
    cases hs : strings.Split sep s with
    | nil => exact absurd hs (Split_ne_nil sep s)
    | cons seg segs => exact ⟨seg, segs, rfl, by simpa using hs⟩
  | cons c l ih =>
    simp only [List.mem_cons, not_or] at hl
    obtain ⟨seg, segs, h1, h2⟩ := ih hl.2
    obtain ⟨seg', segs', h3, h4⟩ := Split_cons_other sep c (l ++ s) (fun h => hl.1 h.symm)
    rw [h2] at h3
    cases h3
    exact ⟨seg, segs, h1, by simpa using h4⟩

/-- Escaping a path escapes each of its `/`-separated elements. -/
theorem Split_escape (p : GoString) :
    strings.Split (ch '/') (escape p encodePath) =
      (strings.Split (ch '/') p).map (fun s => escape s encodePath) := by
  induction p with
  | nil => simp [escape_nil, strings.Split]
  | cons c p ih =>
    rw [escape_cons]
    by_cases hc : c = ch '/'
    · subst hc
      have hb : escapeByte (ch '/') = [ch '/'] := by decide
      rw [hb, List.singleton_append, Split_cons_sep, Split_cons_sep, ih]
      simp [escape_nil]
    · have hfree : ch '/' ∉ escapeByte c := by
        rcases escapeByte_cases c with ⟨_, hb⟩ | ⟨_, a, b, ha, hb', hb⟩
        · rw [hb]
          simpa using fun h => hc h.symm
        · rw [hb]
          simp only [List.mem_cons, List.mem_singleton, not_or, List.not_mem_nil, or_false]
          exact ⟨by decide, fun h => ha h.symm, fun h => hb' h.symm⟩
      obtain ⟨seg, segs, h1, h2⟩ := Split_append_free (ch '/') (escapeByte c)
        (escape p encodePath) hfree
      obtain ⟨seg', segs', h3, h4⟩ := Split_cons_other (ch '/') c p hc
      rw [h2, h4]
      rw [ih, h3] at h1
      simp only [List.map_cons, List.cons.injEq] at h1
      simp [escape_cons, h1.1, h1.2]

/-- The `/`-separated elements of `s`, each after a `/`, spell `/` followed by `s`. -/
theorem Split_join (s : GoString) :
    (strings.Split (ch '/') s).flatMap (fun e => ch '/' :: e) = ch '/' :: s := by
  induction s with
  | nil => simp [strings.Split]
  | cons c t ih =>
    by_cases hc : c = ch '/'
    · subst hc
      rw [Split_cons_sep]
      simp [ih]
    · obtain ⟨seg, segs, h1, h2⟩ := Split_cons_other (ch '/') c t hc
      rw [h1] at ih
      rw [h2]
      simp only [List.flatMap_cons, List.cons_append, List.cons.injEq, true_and] at ih ⊢
      rw [ih]

theorem resolveStep_plain (dst e : GoString) (he : plainElem e) :
    resolveStep { dst := dst, first := false } e =
      { dst := dst ++ ch '/' :: e, first := false } := by
  unfold resolveStep
  simp [he.1, he.2, gs_slash]

theorem foldl_resolveStep_plain (elems : List GoString) (dst : GoString)
    (h : ∀ e ∈ elems, plainElem e) :
    elems.foldl resolveStep { dst := dst, first := false } =
      { dst := dst ++ elems.flatMap (fun e => ch '/' :: e), first := false } := by
  induction elems generalizing dst with
  | nil => simp
  | cons e rest ih =>
    rw [List.foldl_cons, resolveStep_plain dst e (h e (List.mem_cons_self _ _)),
      ih _ (fun x hx => h x (List.mem_cons_of_mem _ hx))]
    simp

theorem getLastD_mem (l : List GoString) (hl : l ≠ []) : l.getLastD [] ∈ l := by
  induction l with
  | nil => exact absurd rfl hl
  | cons a t ih =>
    cases t with
    | nil => simp [List.getLastD]
    | cons b t' =>
      have := ih (by simp)
      simp only [List.getLastD_cons] at this ⊢
      exact List.mem_cons_of_mem _ (by simpa using this)

/-- `resolvePath` returns an absolute reference path without `.` and `..` elements as it
is, whatever the base. -/
theorem resolvePath_plain (base t : GoString)
    (h : ∀ e ∈ strings.Split (ch '/') (ch '/' :: t), plainElem e) :
    resolvePath base (ch '/' :: t) = ch '/' :: t := by
  have hsplit := Split_cons_sep (ch '/') t
  rw [hsplit] at h
  have hrest : ∀ e ∈ strings.Split (ch '/') t, plainElem e :=
    fun e he => h e (List.mem_cons_of_mem _ he)
  have hnil : plainElem ([] : GoString) := h [] (List.mem_cons_self _ _)
  have hfirst : resolveStep { dst := [ch '/'], first := true } [] =
      { dst := [ch '/'], first := false } := by
    unfold resolveStep
    have h1 : ([] : GoString) ≠ gs "." := hnil.1
    have h2 : ([] : GoString) ≠ gs ".." := hnil.2
    simp [h1, h2]
  have hlast : plainElem (([] :: strings.Split (ch '/') t).getLastD []) :=
    h _ (getLastD_mem _ (by simp))
  unfold resolvePath
  simp only [ne_eq, not_true_eq_false, if_false, hsplit, List.foldl_cons, gs_slash, hfirst,
    foldl_resolveStep_plain _ _ hrest, Split_join, hlast.1, hlast.2, or_self]
  simp

theorem escape_plainElem (e : GoString) (he : plainElem e) :
    plainElem (escape e encodePath) :=
  ⟨fun h => he.1 (escape_eq_dot e h), fun h => he.2 (escape_eq_dotdot e h)⟩

theorem escape_absolute (t : GoString) :
    escape (ch '/' :: t) encodePath = ch '/' :: escape t encodePath := by
  have hb : escapeByte (ch '/') = [ch '/'] := by decide
  rw [escape_cons, hb]
  rfl

theorem setPathIgnoringError_escape (u : URL) (p : GoString) :
    setPathIgnoringError u (escape p encodePath) = { u with Path := p, RawPath := [] } := by
  unfold setPathIgnoringError setPath
  rw [unescape_escape_ok]
  simp

/-- For an absolute path without `.` and `..` elements, the upstream URL has the scheme, user
and host of the target and exactly that path, and nothing else. -/
theorem proxyURL_plain (target : URL) (t : GoString)
    (h : ∀ e ∈ strings.Split (ch '/') (ch '/' :: t), plainElem e) :
    proxyURL target (ch '/' :: t) =
      { Scheme := target.Scheme, User := target.User, Host := target.Host,
        Path := ch '/' :: t } := by
  have hstar : ¬ (ch '/' :: t = gs "*") := by
    intro heq
    have h0 := congrArg List.head? heq
    simp only [List.head?_cons, Option.some.injEq] at h0
    have h1 : (gs "*").head? = some (ch '*') := by decide
    rw [h1] at h0
    exact absurd (Option.some.inj h0) (by decide)
  have hesc : EscapedPath { Path := ch '/' :: t } = escape (ch '/' :: t) encodePath := by
    unfold EscapedPath
    simp [hstar]
  have hplain : ∀ e ∈ strings.Split (ch '/') (ch '/' :: escape t encodePath),
      plainElem e := by
    intro e he
    rw [← escape_absolute, Split_escape] at he
    obtain ⟨e0, he0, rfl⟩ := List.mem_map.mp he
    exact escape_plainElem e0 (h e0 he0)
  unfold proxyURL ResolveReference
  simp only [hesc]
  rw [escape_absolute, resolvePath_plain _ _ hplain, ← escape_absolute,
    setPathIgnoringError_escape]
  simp

/-- C2 (the code at the failing input): behind "http://u:8081", GET /users/../tasks is
requested upstream at the path "/tasks", which is not the inbound path: the reference
resolution of main.go 124 has removed the segments "users" and "..". -/
theorem C2_dot_segments_change_requested_path :
    url.Parse (gs "http://u:8081") = .ok { Scheme := gs "http", Host := gs "u:8081" } ∧
    (proxyURL { Scheme := gs "http", Host := gs "u:8081" } (gs "/users/../tasks")).Path
      = gs "/tasks" ∧
    gs "/tasks" ≠ gs "/users/../tasks" ∧
    (createProxyHandler deadNetwork (gs "http://u:8081") [] []
      (entry { Method := gs "GET", URL := { Path := gs "/users/../tasks" } } [])).2 =
      [.roundTrip
        { Method := gs "GET",
          URL := { Scheme := gs "http", Host := gs "u:8081", Path := gs "/tasks" },
          Header := [(gs "X-Forwarded-Host", [[]])], Body := [], Host := gs "u:8081" }] := by
  decide

/-! ### The inbound query string -/

theorem setPathIgnoringError_query (u : URL) (p : GoString) :
    (setPathIgnoringError u p).RawQuery = u.RawQuery ∧
    (setPathIgnoringError u p).ForceQuery = u.ForceQuery := by
  unfold setPathIgnoringError setPath
  cases unescape p encodePath <;> simp

theorem proxyURL_query (target : URL) (path : GoString) (hpath : path ≠ []) :
    (proxyURL target path).RawQuery = [] ∧ (proxyURL target path).ForceQuery = false := by
  unfold proxyURL ResolveReference
  simp only [hpath, ne_eq, not_true_eq_false, false_or, if_false, false_and, if_true]
  rw [(setPathIgnoringError_query _ _).1, (setPathIgnoringError_query _ _).2]
  simp

theorem Context_Header_writer (c c' : Context) (key value : GoString)
    (h : c.Writer = c'.Writer) :
    (c.Header key value).Writer = (c'.Header key value).Writer := by
  unfold Context.Header
  split <;> simp [h]

theorem copyResponseHeaders_writer (upstream : Header) (c c' : Context)
    (h : c.Writer = c'.Writer) :
    (copyResponseHeaders upstream c).Writer = (copyResponseHeaders upstream c').Writer := by
  have inner : ∀ (vs : List GoString) (k : GoString) (c c' : Context),
      c.Writer = c'.Writer →
      (vs.foldl (fun c value => c.Header k value) c).Writer =
        (vs.foldl (fun c value => c.Header k value) c').Writer := by
    intro vs k
    induction vs with
    | nil => intro c c' h; simpa using h
    | cons v vs ih =>
      intro c c' h
      simp only [List.foldl_cons]
      exact ih _ _ (Context_Header_writer c c' k v h)
  unfold copyResponseHeaders
  induction upstream generalizing c c' with
  | nil => simpa using h
  | cons e rest ih =>
    simp only [List.foldl_cons]
    exact ih _ _ (inner e.2 e.1 c c' h)

theorem Context_JSON_writer (c c' : Context) (code : Nat) (obj : H)
    (h : c.Writer = c'.Writer) :
    (c.JSON code obj).Writer = (c'.JSON code obj).Writer := by
  unfold Context.JSON Context.Status
  split <;> simp [h]

/-- The response written by the proxy handler and the calls it issues depend on the inbound
request only through its method, path, header, body and host, not through its query. -/
theorem createProxyHandler_ignores_query (net : Network) (targetURL basePath : GoString)
    (past : List NetCall) (r : Request) (hdr : Header) (q : GoString) :
    (createProxyHandler net targetURL basePath past
      (entry { r with URL := { r.URL with RawQuery := q } } hdr)).1.Writer =
      (createProxyHandler net targetURL basePath past (entry r hdr)).1.Writer ∧
    (createProxyHandler net targetURL basePath past
      (entry { r with URL := { r.URL with RawQuery := q } } hdr)).2 =
      (createProxyHandler net targetURL basePath past (entry r hdr)).2 := by
  unfold createProxyHandler
  by_cases hne : targetURL = []
  · simp only [hne, if_true, and_true]
    exact Context_JSON_writer _ _ _ _ rfl
  · simp only [hne, if_false]
    cases url.Parse targetURL with
    | error err =>
      simp only [and_true]
      exact Context_JSON_writer _ _ _ _ rfl
    | ok target =>
      simp only [entry]
      have hb : buildRequest (proxyURL target r.URL.Path)
          { r with URL := { r.URL with RawQuery := q } } =
          buildRequest (proxyURL target r.URL.Path) r := rfl
      simp only [hb]
      cases buildRequest (proxyURL target r.URL.Path) r with
      | error err =>
        simp only [and_true]
        exact Context_JSON_writer _ _ _ _ rfl
      | ok req =>
        simp only
        cases net.Do past req with
        | error e =>
          simp only [and_true]
          exact Context_JSON_writer _ _ _ _ rfl
        | ok resp =>
          simp only [and_true]
          have hw := copyResponseHeaders_writer resp.Header
            { Request := { r with URL := { r.URL with RawQuery := q } },
              Writer := { header := hdr } }
            { Request := r, Writer := { header := hdr } } rfl
          unfold ioCopy Context.Status
          split <;> simp [hw]

/-- C3 (as amended): whatever query string `q` the inbound request has, the upstream URL
built by the handler has no query string, and the handler answers and calls upstream exactly
as for the same request without `q`: the inbound query string is not forwarded. -/
theorem C3_query_string_not_forwarded (net : Network) (targetURL basePath : GoString)
    (past : List NetCall) (r : Request) (hdr : Header) (q : GoString) (target : URL)
    (hpath : r.URL.Path ≠ []) :
    (proxyURL target ({ r with URL := { r.URL with RawQuery := q } } : Request).URL.Path).RawQuery
      = [] ∧
    (proxyURL target ({ r with URL := { r.URL with RawQuery := q } } : Request).URL.Path).ForceQuery
      = false ∧
    (createProxyHandler net targetURL basePath past
      (entry { r with URL := { r.URL with RawQuery := q } } hdr)).1.Writer =
      (createProxyHandler net targetURL basePath past (entry r hdr)).1.Writer ∧
    (createProxyHandler net targetURL basePath past
      (entry { r with URL := { r.URL with RawQuery := q } } hdr)).2 =
      (createProxyHandler net targetURL basePath past (entry r hdr)).2 :=
  ⟨(proxyURL_query target _ hpath).1, (proxyURL_query target _ hpath).2,
   createProxyHandler_ignores_query net targetURL basePath past r hdr q⟩

/-- C3 (as amended), at GET /users?page=2 behind "http://u:8081": the upstream URL has no
query string. -/
theorem C3_query_string_not_forwarded_witness :
    (gs "/users") ≠ [] ∧
    (proxyURL { Scheme := gs "http", Host := gs "u:8081" }
      ({ Method := gs "GET", URL := { Path := gs "/users", RawQuery := gs "page=2" } }
        : Request).URL.Path).RawQuery = [] :=
  ⟨by decide,
   (C3_query_string_not_forwarded deadNetwork (gs "http://u:8081") [] []
     { Method := gs "GET", URL := { Path := gs "/users" } } [] (gs "page=2")
     { Scheme := gs "http", Host := gs "u:8081" } (by decide)).1⟩

/-- C3 (the claim fails): GET /users?page=2 behind "http://u:8081" is requested upstream at
"http://u:8081/users": the request issued has an empty query string, and so has the URL
reported when the call fails. -/
theorem C3_counterexample_query_dropped :
    (createProxyHandler deadNetwork (gs "http://u:8081") [] []
      (entry { Method := gs "GET",
               URL := { Path := gs "/users", RawQuery := gs "page=2" } } [])).2 =
      [.roundTrip
        { Method := gs "GET",
          URL := { Scheme := gs "http", Host := gs "u:8081", Path := gs "/users",
                   RawQuery := [] },
          Header := [(gs "X-Forwarded-Host", [[]])], Body := [], Host := gs "u:8081" }] ∧
    jsonField
      (createProxyHandler deadNetwork (gs "http://u:8081") [] []
        (entry { Method := gs "GET",
                 URL := { Path := gs "/users", RawQuery := gs "page=2" } } [])).1
      (gs "service_url") = some (.str (gs "http://u:8081/users")) ∧
    gs "page=2" ≠ [] := by
  decide

/-- C10 (as amended), at POST /tasks behind "http://t:8082" with the inbound headers
Accept: a, b and Content-Type: application/json: the forwarded request is a POST carrying
Accept with the values a, b in that order. -/
theorem C10_headers_and_method_forwarded_witness :
    NetCall.roundTrip
      { Method := gs "POST",
        URL := { Scheme := gs "http", Host := gs "t:8082", Path := gs "/tasks" },
        Header := [(gs "Accept", [gs "a", gs "b"]),
                   (gs "Content-Type", [gs "application/json"]),
                   (gs "X-Forwarded-Host", [gs "gw.example"])],
        Body := gs "x", Host := gs "t:8082" } ∈
      (createProxyHandler deadNetwork (gs "http://t:8082") [] []
        (entry { Method := gs "POST", URL := { Path := gs "/tasks" },
                 Header := [(gs "Accept", [gs "a", gs "b"]),
                            (gs "Content-Type", [gs "application/json"])],
                 Body := gs "x", Host := gs "gw.example" } [])).2 ∧
    Header.lookup
      ([(gs "Accept", [gs "a", gs "b"]),
        (gs "Content-Type", [gs "application/json"]),
        (gs "X-Forwarded-Host", [gs "gw.example"])] : Header) (gs "Accept")
      = [gs "a", gs "b"] := by
  have hcall : NetCall.roundTrip
      { Method := gs "POST",
        URL := { Scheme := gs "http", Host := gs "t:8082", Path := gs "/tasks" },
        Header := [(gs "Accept", [gs "a", gs "b"]),
                   (gs "Content-Type", [gs "application/json"]),
                   (gs "X-Forwarded-Host", [gs "gw.example"])],
        Body := gs "x", Host := gs "t:8082" } ∈
      (createProxyHandler deadNetwork (gs "http://t:8082") [] []
        (entry { Method := gs "POST", URL := { Path := gs "/tasks" },
                 Header := [(gs "Accept", [gs "a", gs "b"]),
                            (gs "Content-Type", [gs "application/json"])],
                 Body := gs "x", Host := gs "gw.example" } [])).2 := by
    decide
  refine ⟨hcall, ?_⟩
  exact (C10_headers_and_method_forwarded deadNetwork (gs "http://t:8082") [] []
    { Method := gs "POST", URL := { Path := gs "/tasks" },
      Header := [(gs "Accept", [gs "a", gs "b"]),
                 (gs "Content-Type", [gs "application/json"])],
      Body := gs "x", Host := gs "gw.example" } [] _
    (by
      refine ⟨by decide, ?_⟩
      intro e he
      simp only [List.mem_cons, List.mem_singleton, List.not_mem_nil, or_false] at he
      rcases he with he | he <;> subst he <;> decide)
    (by decide) hcall).2 (gs "Accept") [gs "a", gs "b"] (by decide) (by decide)

/-- C10 (the claim fails): X-Forwarded-Host is no hop-by-hop header, the inbound request
carries it with the single value "" and Host gw.example, and the forwarded request carries
it with the value gw.example instead. -/
theorem C10_counterexample_forwarded_host_replaced :
    gs "X-Forwarded-Host" ∉ hopByHopHeaders ∧
    (gs "X-Forwarded-Host", [[]]) ∈
      ({ Method := gs "GET", URL := { Path := gs "/tasks" },
         Header := [(gs "X-Forwarded-Host", [[]])], Host := gs "gw.example" } : Request).Header ∧
    (createProxyHandler deadNetwork (gs "http://t:8082") [] []
      (entry { Method := gs "GET", URL := { Path := gs "/tasks" },
               Header := [(gs "X-Forwarded-Host", [[]])], Host := gs "gw.example" } [])).2.map
      (fun call =>
        match call with
        | .roundTrip req => Header.lookup req.Header (gs "X-Forwarded-Host")
        | .get _ => []) = [[gs "gw.example"]] ∧
    [gs "gw.example"] ≠ [([] : GoString)] := by
  decide

/-! ### Hop-by-hop headers -/

/-- On a request built by `buildRequest` from a well-formed inbound header map, every
inbound header name other than an X-Forwarded-Host with empty first value has the inbound
values. -/
theorem buildRequest_lookup (pu : URL) (r req : Request)
    (wf : Header.WellFormed r.Header) (hb : buildRequest pu r = .ok req)
    (key : GoString) (values : List GoString) (hmem : (key, values) ∈ r.Header)
    (hx : key = gs "X-Forwarded-Host" → Header.Get r.Header (gs "X-Forwarded-Host") ≠ []) :
    Header.lookup req.Header key = values := by
  have hok := buildRequest_ok _ _ _ hb
  have hcopy : Header.lookup (copyRequestHeaders r.Header []) key = values := by
    rw [Header_lookup_copyRequestHeaders _ _ _ wf, Header_lookup_mem _ _ _ wf.1 hmem]
    simp [Header.lookup]
  rw [hok.2.2, copyRequestHeaders_Get _ _ wf]
  by_cases hget : Header.Get r.Header (gs "X-Forwarded-Host") = []
  · simp only [hget, if_true, Header.Set, canonical_XForwardedHost, Header_lookup_store]
    by_cases hk : gs "X-Forwarded-Host" = key
    · exact absurd hget (hx hk.symm)
    · simp [hk, hcopy]
  · simp only [hget, if_false]
    exact hcopy

/-- C11 (as amended): the proxy handler has no hop-by-hop filter; every hop-by-hop header
that is in the header map of the inbound request when the handler runs is placed on the
upstream request, with the same values in the same order. (Go's server has by then removed
Transfer-Encoding, and Trailer of a chunked request, from that map.) -/
theorem C11_hop_by_hop_headers_are_forwarded (net : Network) (targetURL basePath : GoString)
    (past : List NetCall) (r : Request) (hdr : Header) (req : Request)
    (key : GoString) (values : List GoString)
    (wf : Header.WellFormed r.Header)
    (hcall : NetCall.roundTrip req ∈
      (createProxyHandler net targetURL basePath past (entry r hdr)).2)
    (hmem : (key, values) ∈ r.Header)
    (hhop : key ∈ hopByHopHeaders) :
    Header.lookup req.Header key = values := by
  obtain ⟨target, req', _, hb, heq⟩ := createProxyHandler_calls _ _ _ _ _ _ hcall
  cases heq
  refine buildRequest_lookup _ _ _ wf hb key values hmem ?_
  intro hk
  subst hk
  exact absurd hhop (by decide)

/-- C11 (as amended), at GET /users behind "http://u:8081" with the inbound headers
Connection: keep-alive and Upgrade: websocket: the upstream request carries
Connection: keep-alive. -/
theorem C11_hop_by_hop_headers_are_forwarded_witness :
    NetCall.roundTrip
      { Method := gs "GET",
        URL := { Scheme := gs "http", Host := gs "u:8081", Path := gs "/users" },
        Header := [(gs "Connection", [gs "keep-alive"]), (gs "Upgrade", [gs "websocket"]),
                   (gs "X-Forwarded-Host", [gs "gw.example"])],
        Body := [], Host := gs "u:8081" } ∈
      (createProxyHandler deadNetwork (gs "http://u:8081") [] []
        (entry { Method := gs "GET", URL := { Path := gs "/users" },
                 Header := [(gs "Connection", [gs "keep-alive"]),
                            (gs "Upgrade", [gs "websocket"])],
                 Host := gs "gw.example" } [])).2 ∧
    Header.lookup
      ([(gs "Connection", [gs "keep-alive"]), (gs "Upgrade", [gs "websocket"]),
        (gs "X-Forwarded-Host", [gs "gw.example"])] : Header) (gs "Connection")
      = [gs "keep-alive"] := by
  have hcall : NetCall.roundTrip
      { Method := gs "GET",
        URL := { Scheme := gs "http", Host := gs "u:8081", Path := gs "/users" },
        Header := [(gs "Connection", [gs "keep-alive"]), (gs "Upgrade", [gs "websocket"]),
                   (gs "X-Forwarded-Host", [gs "gw.example"])],
        Body := [], Host := gs "u:8081" } ∈
      (createProxyHandler deadNetwork (gs "http://u:8081") [] []
        (entry { Method := gs "GET", URL := { Path := gs "/users" },
                 Header := [(gs "Connection", [gs "keep-alive"]),
                            (gs "Upgrade", [gs "websocket"])],
                 Host := gs "gw.example" } [])).2 := by
    decide
  refine ⟨hcall, ?_⟩
  exact C11_hop_by_hop_headers_are_forwarded deadNetwork (gs "http://u:8081") [] []
    { Method := gs "GET", URL := { Path := gs "/users" },
      Header := [(gs "Connection", [gs "keep-alive"]), (gs "Upgrade", [gs "websocket"])],
      Host := gs "gw.example" } [] _ (gs "Connection") [gs "keep-alive"]
    (by
      refine ⟨by decide, ?_⟩
      intro e he
      simp only [List.mem_cons, List.mem_singleton, List.not_mem_nil, or_false] at he
      rcases he with he | he <;> subst he <;> decide)
    hcall (by decide) (by decide)

/-- C11 (the claim fails): Connection, Keep-Alive and Upgrade are hop-by-hop headers, the
inbound request carries them, and the header set of the upstream request contains each of
them. -/
theorem C11_counterexample_hop_by_hop_forwarded :
    gs "Connection" ∈ hopByHopHeaders ∧ gs "Keep-Alive" ∈ hopByHopHeaders ∧
    gs "Upgrade" ∈ hopByHopHeaders ∧
    (createProxyHandler deadNetwork (gs "http://u:8081") [] []
      (entry { Method := gs "GET", URL := { Path := gs "/users" },
               Header := [(gs "Connection", [gs "keep-alive, Upgrade"]),
                          (gs "Keep-Alive", [gs "timeout=5"]),
                          (gs "Upgrade", [gs "websocket"])],
               Host := gs "gw.example" } [])).2.map
      (fun call =>
        match call with
        | .roundTrip req => req.Header
        | .get _ => []) =
      [[(gs "Connection", [gs "keep-alive, Upgrade"]),
        (gs "Keep-Alive", [gs "timeout=5"]),
        (gs "Upgrade", [gs "websocket"]),
        (gs "X-Forwarded-Host", [gs "gw.example"])]] := by
  decide

/-! ### Error responses -/

theorem jsonField_error_first (c : Context) (v : Value) (rest : H)
    (hbody : c.Writer.body = [.json ((gs "error", v) :: rest)]) :
    jsonField c (gs "error") = some v := by
  unfold jsonField
  rw [hbody]
  simp

/-- C12: when the configured URL is not empty and `url.Parse` rejects it, the handler answers
500 with the JSON object whose error field is "Invalid service URL: " followed by the error
text, and issues no network call; and on every run the handler either relays an upstream
response or answers 503, 500 or 502 with a JSON object that has an error field. -/
theorem C12_invalid_url_and_error_bodies (net : Network) (targetURL basePath : GoString)
    (past : List NetCall) (r : Request) (hdr : Header) :
    (∀ err, targetURL ≠ [] → url.Parse targetURL = .error err →
      (createProxyHandler net targetURL basePath past (entry r hdr)).1.Writer.status = 500 ∧
      (createProxyHandler net targetURL basePath past (entry r hdr)).1.Writer.body =
        [.json [(gs "error", .errorText (gs "Invalid service URL: ") (.parse err))]] ∧
      (createProxyHandler net targetURL basePath past (entry r hdr)).2 = []) ∧
    ((∃ req resp, net.Do past req = .ok resp ∧
        (createProxyHandler net targetURL basePath past (entry r hdr)).2 = [.roundTrip req]) ∨
     (((createProxyHandler net targetURL basePath past (entry r hdr)).1.Writer.status = 503 ∨
       (createProxyHandler net targetURL basePath past (entry r hdr)).1.Writer.status = 500 ∨
       (createProxyHandler net targetURL basePath past (entry r hdr)).1.Writer.status = 502) ∧
      ∃ v, jsonField (createProxyHandler net targetURL basePath past (entry r hdr)).1
        (gs "error") = some v)) := by
  constructor
  · intro err hne hparse
    have hj := JSON_entry r hdr 500
      [(gs "error", .errorText (gs "Invalid service URL: ") (.parse err))]
      (by decide) (by decide)
    simp only [createProxyHandler, hne, if_false, hparse]
    exact ⟨hj.1, hj.2, trivial⟩
  · unfold createProxyHandler
    by_cases hne : targetURL = []
    · right
      have hj := JSON_entry r hdr 503 [(gs "error", .str (gs "Service is not configured"))]
        (by decide) (by decide)
      simp only [hne, if_true]
      exact ⟨Or.inl hj.1, _, jsonField_error_first _ _ _ hj.2⟩
    · simp only [hne, if_false]
      cases url.Parse targetURL with
      | error err =>
        right
        have hj := JSON_entry r hdr 500
          [(gs "error", .errorText (gs "Invalid service URL: ") (.parse err))]
          (by decide) (by decide)
        exact ⟨Or.inr (Or.inl hj.1), _, jsonField_error_first _ _ _ hj.2⟩
      | ok target =>
        simp only
        cases buildRequest (proxyURL target (entry r hdr).Request.URL.Path)
            (entry r hdr).Request with
        | error err =>
          right
          have hj := JSON_entry r hdr 500 [(gs "error", .errorText [] err)]
            (by decide) (by decide)
          exact ⟨Or.inr (Or.inl hj.1), _, jsonField_error_first _ _ _ hj.2⟩
        | ok req =>
          simp only
          cases hd : net.Do past req with
          | error e =>
            right
            have hj := JSON_entry r hdr 502
              [(gs "error", .str (gs "Cannot connect to service: " ++ e)),
               (gs "service_url",
                 .str (url.String (proxyURL target (entry r hdr).Request.URL.Path)))]
              (by decide) (by decide)
            exact ⟨Or.inr (Or.inr hj.1), _, jsonField_error_first _ _ _ hj.2⟩
          | ok resp =>
            left
            exact ⟨req, resp, hd, rfl⟩

/-- C12, at the configured URL "http://u:port", whose port is not a number: GET /users is
answered 500 with an error field that starts with "Invalid service URL: ", without any
network call. -/
theorem C12_invalid_url_and_error_bodies_witness :
    (createProxyHandler deadNetwork (gs "http://u:port") [] []
      (entry { Method := gs "GET", URL := { Path := gs "/users" } } [])).1.Writer.status
      = 500 ∧
    (createProxyHandler deadNetwork (gs "http://u:port") [] []
      (entry { Method := gs "GET", URL := { Path := gs "/users" } } [])).1.Writer.body =
      [.json [(gs "error", .errorText (gs "Invalid service URL: ")
        (.parse { Op := gs "parse", URL := gs "http://u:port",
                  Err := .invalidPort (gs ":port") }))]] ∧
    (createProxyHandler deadNetwork (gs "http://u:port") [] []
      (entry { Method := gs "GET", URL := { Path := gs "/users" } } [])).2 = [] :=
  (C12_invalid_url_and_error_bodies deadNetwork (gs "http://u:port") [] []
    { Method := gs "GET", URL := { Path := gs "/users" } } []).1
    { Op := gs "parse", URL := gs "http://u:port", Err := .invalidPort (gs ":port") }
    (by decide) (by decide)

/-! ### The health response -/

/-- C15: the health response has status 200 whatever the probes return; its body is the
JSON object with exactly the fields status, services and timestamp, where services maps
user_service and task_service to the two configured URLs as they are. -/
theorem C15_health_response_shape (net : Network) (userServiceURL taskServiceURL : GoString)
    (taskFirst : Bool) (now : GoString) (past : List NetCall) (req : Request)
    (hdr : Header) :
    (healthHandler net userServiceURL taskServiceURL taskFirst now past
      (entry req hdr)).1.Writer.status = 200 ∧
    (∃ status,
      (healthHandler net userServiceURL taskServiceURL taskFirst now past
        (entry req hdr)).1.Writer.body =
        [.json [(gs "status", .str status),
                (gs "services", .strMap [(gs "user_service", userServiceURL),
                                         (gs "task_service", taskServiceURL)]),
                (gs "timestamp", .str now)]]) ∧
    jsonField
      (healthHandler net userServiceURL taskServiceURL taskFirst now past (entry req hdr)).1
      (gs "services") =
      some (.strMap [(gs "user_service", userServiceURL),
                     (gs "task_service", taskServiceURL)]) := by
  have hj := JSON_entry req hdr 200
    [(gs "status", .str (healthLoop net past
        (if taskFirst then (services userServiceURL taskServiceURL).reverse
         else services userServiceURL taskServiceURL) (gs "OK", [])).1),
     (gs "services", .strMap (services userServiceURL taskServiceURL)),
     (gs "timestamp", .str now)]
    (by decide) (by decide)
  refine ⟨hj.1, ⟨_, hj.2⟩, ?_⟩
  unfold jsonField
  simp only [healthHandler]
  rw [hj.2]
  have h1 : gs "status" ≠ gs "services" := by decide
  simp [List.find?, h1, services]

/-! ### A base URL with a path -/

theorem resolvePath_absolute (base x : GoString) :
    resolvePath base (ch '/' :: x) = resolvePath [] (ch '/' :: x) := by
  unfold resolvePath
  simp

theorem setPathIgnoringError_fields (u : URL) (p : GoString) :
    (setPathIgnoringError u p).Scheme = u.Scheme ∧
    (setPathIgnoringError u p).Host = u.Host ∧
    (setPathIgnoringError u p).Path =
      (match unescape p encodePath with
       | .ok q => q
       | .error _ => u.Path) ∧
    (setPathIgnoringError u p).RawPath =
      (match unescape p encodePath with
       | .ok q => if p = escape q encodePath then [] else p
       | .error _ => u.RawPath) := by
  unfold setPathIgnoringError setPath
  cases unescape p encodePath <;> simp

/-- For an absolute inbound path, the upstream URL is the reference with that path, given
the scheme, user and host of the target, after `setPath` of the resolved path; the path of
the target plays no part. -/
theorem proxyURL_absolute (target : URL) (t : GoString) :
    proxyURL target (ch '/' :: t) =
      setPathIgnoringError
        { Scheme := target.Scheme, User := target.User, Host := target.Host,
          Path := ch '/' :: t }
        (resolvePath [] (ch '/' :: escape t encodePath)) := by
  have hstar : ¬ (ch '/' :: t = gs "*") := by
    intro heq
    have h0 := congrArg List.head? heq
    simp only [List.head?_cons, Option.some.injEq] at h0
    have h1 : (gs "*").head? = some (ch '*') := by decide
    rw [h1] at h0
    exact absurd (Option.some.inj h0) (by decide)
  have hesc : EscapedPath { Path := ch '/' :: t } = escape (ch '/' :: t) encodePath := by
    unfold EscapedPath
    simp [hstar]
  unfold proxyURL ResolveReference
  simp only [hesc]
  rw [escape_absolute, resolvePath_absolute]
  simp

/-- C14: for every base URL (with or without a path) and every inbound path that begins
with "/", the upstream URL has the scheme and the host of the base URL, and its path is
the same whatever the base URL is: the path of the base URL is discarded. -/
theorem C14_base_path_discarded (target other : URL) (path : GoString)
    (habs : path.head? = some (ch '/')) :
    (proxyURL target path).Scheme = target.Scheme ∧
    (proxyURL target path).Host = target.Host ∧
    (proxyURL target path).Path = (proxyURL other path).Path ∧
    (proxyURL target path).RawPath = (proxyURL other path).RawPath := by
  cases path with
  | nil => simp at habs
  | cons c t =>
    simp only [List.head?_cons, Option.some.injEq] at habs
    subst habs
    rw [proxyURL_absolute target t, proxyURL_absolute other t]
    have h1 := setPathIgnoringError_fields
      { Scheme := target.Scheme, User := target.User, Host := target.Host,
        Path := ch '/' :: t }
      (resolvePath [] (ch '/' :: escape t encodePath))
    have h2 := setPathIgnoringError_fields
      { Scheme := other.Scheme, User := other.User, Host := other.Host,
        Path := ch '/' :: t }
      (resolvePath [] (ch '/' :: escape t encodePath))
    refine ⟨h1.1, h1.2.1, ?_, ?_⟩
    · rw [h1.2.2.1, h2.2.2.1]
    · rw [h1.2.2.2, h2.2.2.2]

/-- C14, at the base URLs "http://u:8081/api" and "http://u:8081/api/" and the inbound path
"/users": the upstream URL is "http://u:8081/users", with the path it has for the base
"http://u:8081". -/
theorem C14_base_path_discarded_witness :
    url.Parse (gs "http://u:8081/api") =
      .ok { Scheme := gs "http", Host := gs "u:8081", Path := gs "/api" } ∧
    url.Parse (gs "http://u:8081/api/") =
      .ok { Scheme := gs "http", Host := gs "u:8081", Path := gs "/api/" } ∧
    (proxyURL { Scheme := gs "http", Host := gs "u:8081", Path := gs "/api" }
      (gs "/users")).Path =
      (proxyURL { Scheme := gs "http", Host := gs "u:8081" } (gs "/users")).Path ∧
    url.String (proxyURL { Scheme := gs "http", Host := gs "u:8081", Path := gs "/api" }
      (gs "/users")) = gs "http://u:8081/users" ∧
    url.String (proxyURL { Scheme := gs "http", Host := gs "u:8081", Path := gs "/api/" }
      (gs "/users")) = gs "http://u:8081/users" :=
  ⟨by decide, by decide,
   (C14_base_path_discarded { Scheme := gs "http", Host := gs "u:8081", Path := gs "/api" }
     { Scheme := gs "http", Host := gs "u:8081" } (gs "/users") (by decide)).2.2.1,
   by decide, by decide⟩

/-! ### The route table -/

